import Mathlib

/-!
# CHIP-8 execution engine (`src/cpu.hpp`, `src/cpu.cpp`)

A shallow embedding of the class `chip8::CPU` and a verification of its
instruction handlers against the natural-language specification.

* `uint8_t` is `Byte = Fin 256`, `uint16_t` is `Word = Fin 65536`.  Arithmetic is
  carried out on `Nat` / `Int` (the C++ integer promotions) and every store into
  an 8- or 16-bit location truncates explicitly (`byte`, `word`, `byteOfInt`).
* `std::array<T, N>` is a function `Fin N → T`; an access `a[idx]` with a computed index is
  `arrayGet` / `arraySet`, which yield `none` for an index outside the array.
* A `void` member function that mutates the object and indexes arrays only with the masked
  opcode fields X, Y (always below 16) or constants is a function `CPU → CPU`.  The handlers
  have no error channel: they return nothing and throw nothing.
* A handler that indexes the call stack, the memory or the registers with a computed value
  (`ins_00ee`, `ins_2nnn`, `ins_fx33`, `ins_fx55`, `ins_fx65`) yields an `Outcome`: the state,
  the list of the indexed accesses it made, and the access that was out of range, if any.
  Nothing is modelled beyond an out-of-range access: for a `std::array` it is undefined
  behaviour in C++, for the memory it is the fatal condition of the specification.
* A `for` loop over a `uint8_t` counter is `regLoop`, a recursion on the number of
  loop-condition evaluations still allowed; that the loops of the handlers exit within the
  allowance, and after how many iterations, is proved below.
* `Memory` and `Keyboard` are collaborators whose classes are not among the sources; they
  are modelled from the specification.
-/

namespace chip8

/-! ## Machine integers -/

/-- An unsigned 8-bit value (`uint8_t`). -/
abbrev Byte := Fin 256

/-- An unsigned 16-bit value (`uint16_t`). -/
abbrev Word := Fin 65536

/-- Conversion of a non-negative promoted value to `uint8_t`: reduction modulo 2^8. -/
def byte (n : Nat) : Byte := ⟨n % 256, Nat.mod_lt n (by decide)⟩

/-- Conversion of a non-negative promoted value to `uint16_t`: reduction modulo 2^16. -/
def word (n : Nat) : Word := ⟨n % 65536, Nat.mod_lt n (by decide)⟩

/-- Conversion of a possibly negative `int` to `uint8_t`: reduction modulo 2^8. -/
def byteOfInt (z : Int) : Byte := ⟨(z % 256).toNat, by omega⟩

/-- Conversion of a C++ `bool` to `uint8_t`: `true` is 1, `false` is 0. -/
def boolByte (b : Bool) : Byte := if b then 1 else 0

/-- The pre-increment `++b` on a `uint8_t`. -/
def inc8 (b : Byte) : Byte := byte (b.val + 1)

/-- The decrement `b--` on a `uint8_t`: 0 wraps to 255. -/
def dec8 (b : Byte) : Byte := byteOfInt ((b.val : Int) - 1)

/-! ## Arrays -/

/-- Read `a[idx]` of an array with `n` entries: the entry for an index below `n`, and `none`
for an index outside the array, where the read has no defined value. -/
def arrayGet {n : Nat} {α : Type} (a : Fin n → α) (idx : Nat) : Option α :=
  if h : idx < n then some (a ⟨idx, h⟩) else none

/-- Write `a[idx] = x` of an array with `n` entries: for an index below `n` the array in which
the entry `idx` holds `x`, and `none` for an index outside the array, where the write does not
land in the array and has no defined effect. -/
def arraySet {n : Nat} {α : Type} (a : Fin n → α) (idx : Nat) (x : α) : Option (Fin n → α) :=
  if idx < n then some (fun k => if k.val = idx then x else a k) else none

/-! ## The Memory collaborator -/

/-- Modelled from the spec: the class `Memory` (`memory.hpp` is not among the sources).
A fixed-size byte-addressable store of the canonical size, 4096 bytes; an access at an
address of 4096 or more is out of range, a fatal condition (see `loadMemory`,
`storeMemory`). -/
abbrev Memory := Fin 4096 → Byte

/-- Modelled from the spec: `Memory::prgStart()`, the program-load offset
(canonical value 0x200). -/
def Memory.prgStart (_m : Memory) : Word := 0x200

/-! ## Architectural state -/

/-- The data members of `class CPU` that the member functions in `cpu.cpp` read or write:
the referenced memory, the call stack, the general purpose registers, the I register,
the program counter, the two timers and the stack pointer. -/
structure CPU where
  /-- reference member `Memory &memory` -/
  memory : Memory
  /-- call stack, `std::array<uint16_t, 16> stack` -/
  stack : Fin 16 → Word
  /-- general purpose registers, `std::array<uint8_t, 16> v` -/
  v : Fin 16 → Byte
  /-- I register -/
  i : Word
  /-- program counter -/
  pc : Word
  /-- delay timer -/
  dt : Byte
  /-- sound timer -/
  st : Byte
  /-- stack pointer -/
  sp : Byte

/-- The assignment `v[x] = b`. -/
def CPU.setV (s : CPU) (x : Fin 16) (b : Byte) : CPU :=
  { s with v := Function.update s.v x b }

/-! ## Indexed accesses and their outcome -/

/-- The arrays that handlers index with a computed value: the call stack `stack`, the register
file `v` (inside the copy loops) and the memory. -/
inductive ArrayId where
  | stack
  | registers
  | memory
deriving DecidableEq

/-- One indexed access `a[idx]`: the array, the index handed to it and whether the access is
a store (`true`) or a load (`false`). -/
structure Access where
  /-- the array that is indexed -/
  arr : ArrayId
  /-- the index handed to the array -/
  idx : Nat
  /-- whether the access writes the entry -/
  isStore : Bool
deriving DecidableEq

/-- What running a handler, or a part of one, yields.  With `fault = none` the handler has
returned and `state` is the state it leaves.  With `fault = some a` the handler has made the
access `a` with an index outside the array and `state` is the state at that access; nothing
is modelled beyond it.  For the call stack and the registers, which are `std::array`s indexed
without a check, such an access is undefined behaviour in C++ and no error is reported to
the caller; for the memory it is the fatal condition of the specification.  The list
`accesses` holds the indexed accesses made, in order, the out-of-range one included. -/
structure Outcome where
  /-- state at the return, or at the out-of-range access -/
  state : CPU
  /-- indexed accesses made, in order -/
  accesses : List Access
  /-- the out-of-range access, if one was made -/
  fault : Option Access

/-- The handler returns with state `s` without a further indexed access. -/
def Outcome.done (s : CPU) : Outcome := ⟨s, [], none⟩

/-- The outcome `o` preceded by the accesses `pre`. -/
def Outcome.after (pre : List Access) (o : Outcome) : Outcome :=
  { o with accesses := pre ++ o.accesses }

/-- Sequencing: the statements `f` run after `o`, unless `o` ended in an out-of-range access. -/
def Outcome.andThen (o : Outcome) (f : CPU → Outcome) : Outcome :=
  match o.fault with
  | some _ => o
  | none => (f o.state).after o.accesses

/-- The load `stack[idx]`, followed by `k` applied to the value read. -/
def loadStack (s : CPU) (idx : Nat) (k : Word → Outcome) : Outcome :=
  match arrayGet s.stack idx with
  | some x => (k x).after [⟨ArrayId.stack, idx, false⟩]
  | none => ⟨s, [⟨ArrayId.stack, idx, false⟩], some ⟨ArrayId.stack, idx, false⟩⟩

/-- The store `stack[idx] = x`. -/
def storeStack (s : CPU) (idx : Nat) (x : Word) : Outcome :=
  match arraySet s.stack idx x with
  | some st => ⟨{ s with stack := st }, [⟨ArrayId.stack, idx, true⟩], none⟩
  | none => ⟨s, [⟨ArrayId.stack, idx, true⟩], some ⟨ArrayId.stack, idx, true⟩⟩

/-- The load `v[idx]` with a computed index, followed by `k` applied to the value read. -/
def loadV (s : CPU) (idx : Nat) (k : Byte → Outcome) : Outcome :=
  match arrayGet s.v idx with
  | some b => (k b).after [⟨ArrayId.registers, idx, false⟩]
  | none => ⟨s, [⟨ArrayId.registers, idx, false⟩], some ⟨ArrayId.registers, idx, false⟩⟩

/-- The store `v[idx] = b` with a computed index. -/
def storeV (s : CPU) (idx : Nat) (b : Byte) : Outcome :=
  match arraySet s.v idx b with
  | some v1 => ⟨{ s with v := v1 }, [⟨ArrayId.registers, idx, true⟩], none⟩
  | none => ⟨s, [⟨ArrayId.registers, idx, true⟩], some ⟨ArrayId.registers, idx, true⟩⟩

/-- Modelled from the spec: the indexed read `memory[idx]` of the class `Memory`, followed by
`k` applied to the byte read.  An address outside the memory is a fatal condition. -/
def loadMemory (s : CPU) (idx : Nat) (k : Byte → Outcome) : Outcome :=
  match arrayGet s.memory idx with
  | some b => (k b).after [⟨ArrayId.memory, idx, false⟩]
  | none => ⟨s, [⟨ArrayId.memory, idx, false⟩], some ⟨ArrayId.memory, idx, false⟩⟩

/-- Modelled from the spec: the indexed write `memory[idx] = b` of the class `Memory`.  An
address outside the memory is a fatal condition. -/
def storeMemory (s : CPU) (idx : Nat) (b : Byte) : Outcome :=
  match arraySet s.memory idx b with
  | some m => ⟨{ s with memory := m }, [⟨ArrayId.memory, idx, true⟩], none⟩
  | none => ⟨s, [⟨ArrayId.memory, idx, true⟩], some ⟨ArrayId.memory, idx, true⟩⟩

/-! ## Opcode fields -/

/-- Accessor `opcodeGetNNN`: `opcode & 0xfff`. -/
def opcodeGetNNN (opcode : Word) : Word := word (opcode.val &&& 0xfff)

/-- Accessor `opcodeGetNN`: `opcode & 0xff`. -/
def opcodeGetNN (opcode : Word) : Byte := byte (opcode.val &&& 0xff)

/-- Accessor `opcodeGetN`: `opcode & 0xf`. -/
def opcodeGetN (opcode : Word) : Byte := byte (opcode.val &&& 0xf)

/-- Accessor `opcodeGetX`: `(opcode >> 8) & 0xf`.  The mask keeps the value below 16, so the
result is used directly as an index into the register file. -/
def opcodeGetX (opcode : Word) : Fin 16 := ⟨(opcode.val >>> 8) &&& 0xf, Nat.lt_succ_of_le Nat.and_le_right⟩

/-- Accessor `opcodeGetY`: `(opcode >> 4) & 0xf`. -/
def opcodeGetY (opcode : Word) : Fin 16 := ⟨(opcode.val >>> 4) &&& 0xf, Nat.lt_succ_of_le Nat.and_le_right⟩

/-! ## Public entry points -/

/-- Entry point `CPU::execute`: the body in `cpu.cpp` is empty. -/
def execute (s : CPU) : CPU := s

/-- Entry point `CPU::updateTimers`: `if (dt) dt--; if (st) st--;`. -/
def updateTimers (s : CPU) : CPU :=
  let s1 := if s.dt ≠ 0 then { s with dt := dec8 s.dt } else s
  if s1.st ≠ 0 then { s1 with st := dec8 s1.st } else s1

/-! ## Instruction handlers -/

/-- Handler `CPU::ins_00ee`: `pc = stack[sp--];`.  The post-decrement of `sp` is evaluated
first and yields the old value, which then indexes the stack; the value read is assigned to
`pc`. -/
def ins_00ee (s : CPU) (_opcode : Word) : Outcome :=
  let s1 := { s with sp := dec8 s.sp }
  loadStack s1 s.sp.val (fun x => Outcome.done { s1 with pc := x })

/-- Handler `CPU::ins_2nnn`: `stack[++sp] = pc; pc = opcodeGetNNN(opcode);`.  The
pre-increment of `sp` is evaluated first and its new value indexes the stack. -/
def ins_2nnn (s : CPU) (opcode : Word) : Outcome :=
  let s1 := { s with sp := inc8 s.sp }
  (storeStack s1 s1.sp.val s1.pc).andThen
    (fun s2 => Outcome.done { s2 with pc := opcodeGetNNN opcode })

/-- Handler `CPU::ins_3xnn`: `if (v[x] == nn) pc += 2;`. -/
def ins_3xnn (s : CPU) (opcode : Word) : CPU :=
  let x := opcodeGetX opcode
  let nn := opcodeGetNN opcode
  if s.v x = nn then { s with pc := word (s.pc.val + 2) } else s

/-- Handler `CPU::ins_8xy4`: `sum = (uint16_t)v[x] + v[y]; v[x] = sum & 0xff; v[0xf] = sum > 0xff;`. -/
def ins_8xy4 (s : CPU) (opcode : Word) : CPU :=
  let x := opcodeGetX opcode
  let y := opcodeGetY opcode
  let sum : Word := word ((s.v x).val + (s.v y).val)
  let s1 := s.setV x (byte (sum.val &&& 0xff))
  s1.setV 0xf (boolByte (decide (sum.val > 0xff)))

/-- Handler `CPU::ins_8xy5`: `v[0xf] = v[x] >= v[y]; v[x] -= v[y];`. -/
def ins_8xy5 (s : CPU) (opcode : Word) : CPU :=
  let x := opcodeGetX opcode
  let y := opcodeGetY opcode
  let s1 := s.setV 0xf (boolByte (decide ((s.v x).val ≥ (s.v y).val)))
  s1.setV x (byteOfInt (((s1.v x).val : Int) - ((s1.v y).val : Int)))

/-- Handler `CPU::ins_8xy6`: `v[0xf] = v[x] & 0x1; v[x] >>= 1;`. -/
def ins_8xy6 (s : CPU) (opcode : Word) : CPU :=
  let x := opcodeGetX opcode
  let s1 := s.setV 0xf (byte ((s.v x).val &&& 0x1))
  s1.setV x (byte ((s1.v x).val >>> 1))

/-- Handler `CPU::ins_8xy7`: `v[0xf] = v[y] >= v[x]; v[x] = v[y] - v[x];`. -/
def ins_8xy7 (s : CPU) (opcode : Word) : CPU :=
  let x := opcodeGetX opcode
  let y := opcodeGetY opcode
  let s1 := s.setV 0xf (boolByte (decide ((s.v y).val ≥ (s.v x).val)))
  s1.setV x (byteOfInt (((s1.v y).val : Int) - ((s1.v x).val : Int)))

/-- Handler `CPU::ins_8xye`: `v[0xf] = (v[x] & 0x80) != 0; v[x] <<= 1;`. -/
def ins_8xye (s : CPU) (opcode : Word) : CPU :=
  let x := opcodeGetX opcode
  let s1 := s.setV 0xf (boolByte (decide ((s.v x).val &&& 0x80 ≠ 0)))
  s1.setV x (byte ((s1.v x).val <<< 1))

/-! ## Reset and the remaining instruction handlers -/

/-- Entry point `CPU::reset`: `stack.fill(0); v.fill(0); i = 0; pc = memory.prgStart();
sp = 0; dt = 0; st = 0;`. -/
def reset (s : CPU) : CPU :=
  { s with stack := fun _ => 0, v := fun _ => 0, i := 0, pc := s.memory.prgStart,
           sp := 0, dt := 0, st := 0 }

/-- Handler `CPU::ins_0nnn`: the body is empty (unsupported). -/
def ins_0nnn (s : CPU) (_opcode : Word) : CPU := s

/-- Handler `CPU::ins_00e0`: the body is empty. -/
def ins_00e0 (s : CPU) (_opcode : Word) : CPU := s

/-- Handler `CPU::ins_1nnn`: `pc = opcodeGetNNN(opcode);`. -/
def ins_1nnn (s : CPU) (opcode : Word) : CPU :=
  { s with pc := opcodeGetNNN opcode }

/-- Handler `CPU::ins_4xnn`: `if (v[x] != nn) pc += 2;`. -/
def ins_4xnn (s : CPU) (opcode : Word) : CPU :=
  let x := opcodeGetX opcode
  let nn := opcodeGetNN opcode
  if s.v x ≠ nn then { s with pc := word (s.pc.val + 2) } else s

/-- Handler `CPU::ins_5xy0`: `if (v[x] == v[y]) pc += 2;`. -/
def ins_5xy0 (s : CPU) (opcode : Word) : CPU :=
  let x := opcodeGetX opcode
  let y := opcodeGetY opcode
  if s.v x = s.v y then { s with pc := word (s.pc.val + 2) } else s

/-- Handler `CPU::ins_6xnn`: `v[x] = nn;`. -/
def ins_6xnn (s : CPU) (opcode : Word) : CPU :=
  let x := opcodeGetX opcode
  let nn := opcodeGetNN opcode
  s.setV x nn

/-- Handler `CPU::ins_7xnn`: `v[x] += nn;`. -/
def ins_7xnn (s : CPU) (opcode : Word) : CPU :=
  let x := opcodeGetX opcode
  let nn := opcodeGetNN opcode
  s.setV x (byte ((s.v x).val + nn.val))

/-- Handler `CPU::ins_8xy0`: `v[x] = v[y];`. -/
def ins_8xy0 (s : CPU) (opcode : Word) : CPU :=
  let x := opcodeGetX opcode
  let y := opcodeGetY opcode
  s.setV x (s.v y)

/-- Handler `CPU::ins_8xy1`: `v[x] |= v[y];`. -/
def ins_8xy1 (s : CPU) (opcode : Word) : CPU :=
  let x := opcodeGetX opcode
  let y := opcodeGetY opcode
  s.setV x (byte ((s.v x).val ||| (s.v y).val))

/-- Handler `CPU::ins_8xy2`: `v[x] &= v[y];`. -/
def ins_8xy2 (s : CPU) (opcode : Word) : CPU :=
  let x := opcodeGetX opcode
  let y := opcodeGetY opcode
  s.setV x (byte ((s.v x).val &&& (s.v y).val))

/-- Handler `CPU::ins_8xy3`: `v[x] ^= v[y];`. -/
def ins_8xy3 (s : CPU) (opcode : Word) : CPU :=
  let x := opcodeGetX opcode
  let y := opcodeGetY opcode
  s.setV x (byte ((s.v x).val ^^^ (s.v y).val))

/-- Handler `CPU::ins_9xy0`: `if (v[x] != v[y]) pc += 2;`. -/
def ins_9xy0 (s : CPU) (opcode : Word) : CPU :=
  let x := opcodeGetX opcode
  let y := opcodeGetY opcode
  if s.v x ≠ s.v y then { s with pc := word (s.pc.val + 2) } else s

/-- Handler `CPU::ins_annn`: `i = opcodeGetNNN(opcode);`. -/
def ins_annn (s : CPU) (opcode : Word) : CPU :=
  { s with i := opcodeGetNNN opcode }

/-- Handler `CPU::ins_bnnn`: `pc = opcodeGetNNN(opcode) + v[0];`. -/
def ins_bnnn (s : CPU) (opcode : Word) : CPU :=
  { s with pc := word ((opcodeGetNNN opcode).val + (s.v 0).val) }

/-- Handler `CPU::ins_cxnn`: the body is empty. -/
def ins_cxnn (s : CPU) (_opcode : Word) : CPU := s

/-- Handler `CPU::ins_dxyn`: the body is empty. -/
def ins_dxyn (s : CPU) (_opcode : Word) : CPU := s

/-- Handler `CPU::ins_ex9e`: the body is empty. -/
def ins_ex9e (s : CPU) (_opcode : Word) : CPU := s

/-- Handler `CPU::ins_exa1`: the body is empty. -/
def ins_exa1 (s : CPU) (_opcode : Word) : CPU := s

/-- Handler `CPU::ins_fx07`: `v[x] = dt;`. -/
def ins_fx07 (s : CPU) (opcode : Word) : CPU :=
  let x := opcodeGetX opcode
  s.setV x s.dt

/-- Modelled from the spec: the class `Keyboard` (only forward-declared in `cpu.hpp`):
16 boolean key states, key `k` is pressed when `kb k` is true. -/
abbrev Keyboard := Fin 16 → Bool

/-- Modelled from the spec: the Keyboard operation "first currently-pressed key, if any". -/
def Keyboard.firstPressed (kb : Keyboard) : Option (Fin 16) :=
  (List.finRange 16).find? (fun k => kb k)

/-- Handler `CPU::ins_fx0a`: the body is empty.  The keyboard, a member of the class in
`cpu.hpp`, is passed explicitly so that the handler can be run against a keyboard state; the
body does not consult it. -/
def ins_fx0a (_keyboard : Keyboard) (s : CPU) (_opcode : Word) : CPU := s

/-- Handler `CPU::ins_fx15`: `dt = v[x];`. -/
def ins_fx15 (s : CPU) (opcode : Word) : CPU :=
  let x := opcodeGetX opcode
  { s with dt := s.v x }

/-- Handler `CPU::ins_fx18`: `st = v[x];`. -/
def ins_fx18 (s : CPU) (opcode : Word) : CPU :=
  let x := opcodeGetX opcode
  { s with st := s.v x }

/-- Handler `CPU::ins_fx1e`: `i += v[x];`. -/
def ins_fx1e (s : CPU) (opcode : Word) : CPU :=
  let x := opcodeGetX opcode
  { s with i := word (s.i.val + (s.v x).val) }

/-- Handler `CPU::ins_fx29`: the body is empty. -/
def ins_fx29 (s : CPU) (_opcode : Word) : CPU := s

/-- Handler `CPU::ins_fx33`: `vx = v[x]; hundreds = vx / 100; tens = (vx / 10) % 10;
ones = vx % 10; memory[i] = hundreds; memory[i + 1] = tens; memory[i + 2] = ones;`.
The indices `i + 1`, `i + 2` are computed on `int`, without 16-bit wraparound. -/
def ins_fx33 (s : CPU) (opcode : Word) : Outcome :=
  let x := opcodeGetX opcode
  let vx := s.v x
  let hundreds := byte (vx.val / 100)
  let tens := byte ((vx.val / 10) % 10)
  let ones := byte (vx.val % 10)
  ((storeMemory s s.i.val hundreds).andThen
    (fun s1 => storeMemory s1 (s1.i.val + 1) tens)).andThen
    (fun s2 => storeMemory s2 (s2.i.val + 2) ones)

/-! ## The register copy loops -/

/-- The loop `for (uint8_t reg = ...; reg <= x; reg++) body`, started at counter value `reg`
and run for at most `fuel` evaluations of the loop condition.  The counter is a `uint8_t`
incremented by `inc8`; the comparison `reg <= x` is made on the promoted values.  An
iteration that ends in an out-of-range access ends the loop with that outcome.  The result
is `none` when the condition still holds after `fuel` evaluations. -/
def regLoop (body : Byte → CPU → Outcome) (x : Nat) : Nat → Byte → CPU → Option Outcome
  | 0, _, _ => none
  | fuel + 1, reg, s =>
    if reg.val ≤ x then
      match (body reg s).fault with
      | some _ => some (body reg s)
      | none =>
        (regLoop body x fuel (inc8 reg) (body reg s).state).map
          (Outcome.after (body reg s).accesses)
    else some (Outcome.done s)

/-- The number of loop-condition evaluations granted to a loop with a `uint8_t` counter: the
counter has 256 values, so a loop whose condition held 256 times in a row never exits. -/
def loopFuel : Nat := 256

/-- Body of the loop of `CPU::ins_fx55`: `memory[i + reg] = v[reg];`.  The index `i + reg` is
computed on `int`, without 16-bit wraparound. -/
def fx55Body (reg : Byte) (s : CPU) : Outcome :=
  loadV s reg.val (fun b => storeMemory s (s.i.val + reg.val) b)

/-- Body of the loop of `CPU::ins_fx65`: `v[reg] = memory[i + reg];`.  The index `i + reg` is
computed on `int`, without 16-bit wraparound. -/
def fx65Body (reg : Byte) (s : CPU) : Outcome :=
  loadMemory s (s.i.val + reg.val) (fun b => storeV s reg.val b)

/-- Handler `CPU::ins_fx55`: `for (uint8_t reg = 0; reg <= x; reg++) memory[i + reg] = v[reg];`.
The value is the outcome at loop exit (see `regLoop`). -/
def ins_fx55 (s : CPU) (opcode : Word) : Outcome :=
  let x := opcodeGetX opcode
  (regLoop fx55Body x.val loopFuel 0 s).getD (Outcome.done s)

/-- Handler `CPU::ins_fx65`: `for (uint8_t reg = 0; reg <= x; reg++) v[reg] = memory[i + reg];`.
The value is the outcome at loop exit (see `regLoop`). -/
def ins_fx65 (s : CPU) (opcode : Word) : Outcome :=
  let x := opcodeGetX opcode
  (regLoop fx65Body x.val loopFuel 0 s).getD (Outcome.done s)

/-- Running a loop body for the counter values of a list, in order, up to the first
out-of-range access. -/
def runBodies (body : Byte → CPU → Outcome) : List Nat → CPU → Outcome
  | [], s => Outcome.done s
  | k :: ks, s =>
    match (body (byte k) s).fault with
    | some _ => body (byte k) s
    | none => (runBodies body ks (body (byte k) s).state).after (body (byte k) s).accesses

/-- The assignment of 0 to all 16 registers (`v.fill(0)`). -/
def CPU.zeroV (s : CPU) : CPU := { s with v := fun _ => 0 }

/-! ## Sample states -/

/-- A state with every cell zero except `V0 = 5`, `VF = 3` and `PC = 0x200`. -/
def sampleCPU : CPU :=
  { memory := fun _ => 0, stack := fun _ => 0,
    v := fun k => if k = 0 then 5 else if k = 0xf then 3 else 0,
    i := 0, pc := 0x200, dt := 0, st := 0, sp := 0 }

/-- The sample state with the stack pointer at the last slot, SP = 15. -/
def fullStackCPU : CPU := { sampleCPU with sp := 15 }

/-- The sample state with SP = 0 and the value 0xABC in stack slot 0. -/
def emptyStackCPU : CPU :=
  { sampleCPU with stack := fun k => if k = 0 then 0xABC else 0 }

/-- The sample state (V0 = 5, PC = 0x200) with the bytes 0x30, 0x05 of opcode 3005 in memory
at 0x200 and 0x201. -/
def skipCPU : CPU :=
  { sampleCPU with memory := fun a => if a = 0x200 then 0x30 else if a = 0x201 then 0x05 else 0 }

/-- The sample state with V2 = 234 and I = 0x300. -/
def bcdCPU : CPU := { (sampleCPU.setV 2 234) with i := 0x300 }

/-- The sample state with V0 = 5, V1 = 7, V2 = 9, V3 = 11 and I = 0x300. -/
def dumpCPU : CPU := { (((sampleCPU.setV 1 7).setV 2 9).setV 3 11) with i := 0x300 }

/-- The sample state with SP = 25, beyond the last stack slot. -/
def beyondStackCPU : CPU := { sampleCPU with sp := 25 }

/-- The sample state with V0 = 5, V1 = 7, V2 = 9 and I = 0xFFF, the last memory address. -/
def memoryEndCPU : CPU := { ((sampleCPU.setV 1 7).setV 2 9) with i := 0xFFF }

/-- A keyboard on which key 7 and no other key is pressed. -/
def key7Pressed : Keyboard := fun k => decide (k = 7)

/-! ## Basic facts about the machine integers and the register file -/

theorem byte_val (n : Nat) : (byte n).val = n % 256 := rfl

theorem word_val (n : Nat) : (word n).val = n % 65536 := rfl

theorem byteOfInt_val (z : Int) : ((byteOfInt z).val : Int) = z % 256 := by
  show (((z % 256).toNat : Nat) : Int) = z % 256
  omega

theorem boolByte_val (b : Bool) : (boolByte b).val = if b then 1 else 0 := by
  cases b <;> rfl

theorem and_0xff_eq (n : Nat) : n &&& 0xff = n % 256 :=
  Nat.and_pow_two_sub_one_eq_mod n 8

theorem and_0xfff_eq (n : Nat) : n &&& 0xfff = n % 4096 :=
  Nat.and_pow_two_sub_one_eq_mod n 12

@[simp] theorem setV_v_same (s : CPU) (x : Fin 16) (b : Byte) : (s.setV x b).v x = b := by
  simp [CPU.setV]

@[simp] theorem setV_v_ne (s : CPU) (x k : Fin 16) (b : Byte) (h : k ≠ x) :
    (s.setV x b).v k = s.v k := by
  simp [CPU.setV, Function.update_noteq h]

@[simp] theorem setV_memory (s : CPU) (x : Fin 16) (b : Byte) : (s.setV x b).memory = s.memory := rfl
@[simp] theorem setV_stack (s : CPU) (x : Fin 16) (b : Byte) : (s.setV x b).stack = s.stack := rfl
@[simp] theorem setV_i (s : CPU) (x : Fin 16) (b : Byte) : (s.setV x b).i = s.i := rfl
@[simp] theorem setV_pc (s : CPU) (x : Fin 16) (b : Byte) : (s.setV x b).pc = s.pc := rfl
@[simp] theorem setV_dt (s : CPU) (x : Fin 16) (b : Byte) : (s.setV x b).dt = s.dt := rfl
@[simp] theorem setV_st (s : CPU) (x : Fin 16) (b : Byte) : (s.setV x b).st = s.st := rfl
@[simp] theorem setV_sp (s : CPU) (x : Fin 16) (b : Byte) : (s.setV x b).sp = s.sp := rfl

/-! ## 8XY4: addition with carry -/

/-- C1: for every state and every opcode whose X field is not 0xF (Y arbitrary), the 8XY4
handler leaves VX = (VX_old + VY_old) mod 256 and VF = 1 if VX_old + VY_old >= 256, else 0;
every register other than VX and VF, and I, PC, SP, the stack, both timers (and the memory)
are unchanged. -/
theorem ins_8xy4_sum_and_carry (s : CPU) (opcode : Word) (hx : opcodeGetX opcode ≠ 0xf) :
    ((ins_8xy4 s opcode).v (opcodeGetX opcode)).val
        = ((s.v (opcodeGetX opcode)).val + (s.v (opcodeGetY opcode)).val) % 256 ∧
    ((ins_8xy4 s opcode).v 0xf).val
        = (if (s.v (opcodeGetX opcode)).val + (s.v (opcodeGetY opcode)).val ≥ 256 then 1 else 0) ∧
    (∀ k : Fin 16, k ≠ opcodeGetX opcode → k ≠ 0xf → (ins_8xy4 s opcode).v k = s.v k) ∧
    (ins_8xy4 s opcode).i = s.i ∧ (ins_8xy4 s opcode).pc = s.pc ∧
    (ins_8xy4 s opcode).sp = s.sp ∧ (ins_8xy4 s opcode).stack = s.stack ∧
    (ins_8xy4 s opcode).dt = s.dt ∧ (ins_8xy4 s opcode).st = s.st ∧
    (ins_8xy4 s opcode).memory = s.memory := by
  have hx1 := (s.v (opcodeGetX opcode)).isLt
  have hy1 := (s.v (opcodeGetY opcode)).isLt
  refine ⟨?_, ?_, ?_, rfl, rfl, rfl, rfl, rfl, rfl, rfl⟩
  · simp only [ins_8xy4]
    rw [setV_v_ne _ _ _ _ hx, setV_v_same, byte_val, word_val, and_0xff_eq]
    omega
  · simp only [ins_8xy4]
    rw [setV_v_same, boolByte_val, word_val]
    have h : (s.v (opcodeGetX opcode)).val + (s.v (opcodeGetY opcode)).val < 65536 := by omega
    rw [Nat.mod_eq_of_lt h]
    by_cases hc : (s.v (opcodeGetX opcode)).val + (s.v (opcodeGetY opcode)).val ≥ 256
    · have h2 : (s.v (opcodeGetX opcode)).val + (s.v (opcodeGetY opcode)).val > 0xff := by omega
      simp [hc, h2]
    · have h2 : ¬ (s.v (opcodeGetX opcode)).val + (s.v (opcodeGetY opcode)).val > 0xff := by omega
      simp [hc, h2]
  · intro k hk hf
    simp only [ins_8xy4]
    rw [setV_v_ne _ _ _ _ hf, setV_v_ne _ _ _ _ hk]

/-- Instance of C1 at the sample state (V0 = 5, VF = 3) and opcode 0x80F4 (X = 0, Y = 0xF):
V0 becomes 8 and VF becomes 0. -/
theorem ins_8xy4_sum_and_carry_witness :
    opcodeGetX 0x80F4 ≠ 0xf ∧
    ((ins_8xy4 sampleCPU 0x80F4).v 0).val = 8 ∧ ((ins_8xy4 sampleCPU 0x80F4).v 0xf).val = 0 :=
  ⟨by decide, (ins_8xy4_sum_and_carry sampleCPU 0x80F4 (by decide)).1,
    (ins_8xy4_sum_and_carry sampleCPU 0x80F4 (by decide)).2.1⟩

/-! ## 8XY5 and 8XY7: subtraction -/

/-- For Y different from 0xF (and X different from 0xF) the 8XY5 handler computes both the
flag and the difference from the values held before the instruction. -/
theorem ins_8xy5_of_y_ne_f (s : CPU) (opcode : Word)
    (hx : opcodeGetX opcode ≠ 0xf) (hy : opcodeGetY opcode ≠ 0xf) :
    (((ins_8xy5 s opcode).v (opcodeGetX opcode)).val : Int)
        = (((s.v (opcodeGetX opcode)).val : Int) - (s.v (opcodeGetY opcode)).val) % 256 ∧
    ((ins_8xy5 s opcode).v 0xf).val
        = (if (s.v (opcodeGetX opcode)).val ≥ (s.v (opcodeGetY opcode)).val then 1 else 0) := by
  constructor
  · simp only [ins_8xy5]
    rw [setV_v_same, byteOfInt_val, setV_v_ne _ _ _ _ hx, setV_v_ne _ _ _ _ hy]
  · simp only [ins_8xy5]
    rw [setV_v_ne _ _ _ _ (Ne.symm hx), setV_v_same, boolByte_val]
    simp

/-- For Y different from 0xF (and X different from 0xF) the 8XY7 handler computes both the
flag and the difference from the values held before the instruction. -/
theorem ins_8xy7_of_y_ne_f (s : CPU) (opcode : Word)
    (hx : opcodeGetX opcode ≠ 0xf) (hy : opcodeGetY opcode ≠ 0xf) :
    (((ins_8xy7 s opcode).v (opcodeGetX opcode)).val : Int)
        = (((s.v (opcodeGetY opcode)).val : Int) - (s.v (opcodeGetX opcode)).val) % 256 ∧
    ((ins_8xy7 s opcode).v 0xf).val
        = (if (s.v (opcodeGetY opcode)).val ≥ (s.v (opcodeGetX opcode)).val then 1 else 0) := by
  constructor
  · simp only [ins_8xy7]
    rw [setV_v_same, byteOfInt_val, setV_v_ne _ _ _ _ hx, setV_v_ne _ _ _ _ hy]
  · simp only [ins_8xy7]
    rw [setV_v_ne _ _ _ _ (Ne.symm hx), setV_v_same, boolByte_val]
    simp

/-- C2: the 8XY5 handler at Y = 0xF.  With V0 = 5 and VF = 3, opcode 0x80F5 (X = 0, Y = 0xF)
leaves VF = 1 and V0 = 4: the flag is written into VF first and the subtraction then reads
VF again, so V0 becomes 5 - 1 and not (5 - 3) mod 256 = 2, the difference of the values held
before the instruction. -/
theorem ins_8xy5_reads_flag_when_y_is_f :
    opcodeGetX 0x80F5 = 0 ∧ opcodeGetY 0x80F5 = 0xf ∧
    sampleCPU.v 0 = 5 ∧ sampleCPU.v 0xf = 3 ∧
    (ins_8xy5 sampleCPU 0x80F5).v 0xf = 1 ∧
    (ins_8xy5 sampleCPU 0x80F5).v 0 = 4 ∧
    (((ins_8xy5 sampleCPU 0x80F5).v 0).val : Int)
      ≠ (((sampleCPU.v 0).val : Int) - (sampleCPU.v 0xf).val) % 256 := by
  decide

/-- C3: the 8XY7 handler at Y = 0xF.  With V0 = 5 and VF = 3, opcode 0x80F7 (X = 0, Y = 0xF)
leaves VF = 0 and V0 = 251: the flag is written into VF first and the subtraction then reads
VF again, so V0 becomes (0 - 5) mod 256 and not (3 - 5) mod 256 = 254, the difference of the
values held before the instruction. -/
theorem ins_8xy7_reads_flag_when_y_is_f :
    opcodeGetX 0x80F7 = 0 ∧ opcodeGetY 0x80F7 = 0xf ∧
    sampleCPU.v 0 = 5 ∧ sampleCPU.v 0xf = 3 ∧
    (ins_8xy7 sampleCPU 0x80F7).v 0xf = 0 ∧
    (ins_8xy7 sampleCPU 0x80F7).v 0 = 251 ∧
    (((ins_8xy7 sampleCPU 0x80F7).v 0).val : Int)
      ≠ (((sampleCPU.v 0xf).val : Int) - (sampleCPU.v 0).val) % 256 := by
  decide

/-! ## X = 0xF: VF as the destination register -/

/-- C4, refuted as stated: with V0 = 5 and VF = 3 none of the five handlers leaves in VF the
arithmetic result of the operand values held before the instruction.  8F04 leaves the carry 0
(not 8), 8F05 leaves 251 (not 254), 8F07 leaves 4 (not 2), 8F06 leaves 0 (not 1) and 8F0E
leaves 0 (not 6). -/
theorem vf_destination_result_not_kept :
    (opcodeGetX 0x8F04 = 0xf ∧ opcodeGetY 0x8F04 = 0 ∧ sampleCPU.v 0 = 5 ∧ sampleCPU.v 0xf = 3) ∧
    ((ins_8xy4 sampleCPU 0x8F04).v 0xf = 0 ∧
      ((ins_8xy4 sampleCPU 0x8F04).v 0xf).val
        ≠ ((sampleCPU.v 0xf).val + (sampleCPU.v 0).val) % 256) ∧
    ((ins_8xy5 sampleCPU 0x8F05).v 0xf = 251 ∧
      (((ins_8xy5 sampleCPU 0x8F05).v 0xf).val : Int)
        ≠ (((sampleCPU.v 0xf).val : Int) - (sampleCPU.v 0).val) % 256) ∧
    ((ins_8xy7 sampleCPU 0x8F07).v 0xf = 4 ∧
      (((ins_8xy7 sampleCPU 0x8F07).v 0xf).val : Int)
        ≠ (((sampleCPU.v 0).val : Int) - (sampleCPU.v 0xf).val) % 256) ∧
    ((ins_8xy6 sampleCPU 0x8F06).v 0xf = 0 ∧
      ((ins_8xy6 sampleCPU 0x8F06).v 0xf).val ≠ (sampleCPU.v 0xf).val >>> 1) ∧
    ((ins_8xye sampleCPU 0x8F0E).v 0xf = 0 ∧
      ((ins_8xye sampleCPU 0x8F0E).v 0xf).val ≠ ((sampleCPU.v 0xf).val <<< 1) % 256) := by
  decide

/-- C4, amended: for the 8XY4 handler with X = 0xF and every register state the flag write
happens last: after the handler VF holds the carry flag of the operand values held before
the instruction (1 if VF_old + VY_old >= 256, else 0), and no other register changes. -/
theorem ins_8xy4_vf_destination_holds_carry (s : CPU) (opcode : Word)
    (hx : opcodeGetX opcode = 0xf) :
    ((ins_8xy4 s opcode).v 0xf).val
        = (if (s.v 0xf).val + (s.v (opcodeGetY opcode)).val ≥ 256 then 1 else 0) ∧
    (∀ k : Fin 16, k ≠ 0xf → (ins_8xy4 s opcode).v k = s.v k) := by
  have hx1 := (s.v 0xf).isLt
  have hy1 := (s.v (opcodeGetY opcode)).isLt
  constructor
  · simp only [ins_8xy4, hx]
    rw [setV_v_same, boolByte_val, word_val]
    have h : (s.v 0xf).val + (s.v (opcodeGetY opcode)).val < 65536 := by omega
    rw [Nat.mod_eq_of_lt h]
    by_cases hc : (s.v 0xf).val + (s.v (opcodeGetY opcode)).val ≥ 256
    · have h2 : (s.v 0xf).val + (s.v (opcodeGetY opcode)).val > 0xff := by omega
      simp [hc, h2]
    · have h2 : ¬ (s.v 0xf).val + (s.v (opcodeGetY opcode)).val > 0xff := by omega
      simp [hc, h2]
  · intro k hk
    simp only [ins_8xy4, hx]
    rw [setV_v_ne _ _ _ _ hk, setV_v_ne _ _ _ _ hk]

/-- Instance of the amended C4 at VF = 200, V1 = 100 and opcode 0x8F14: VF ends as the
carry 1, not as the sum (200 + 100) mod 256 = 44. -/
theorem ins_8xy4_vf_destination_holds_carry_witness :
    opcodeGetX 0x8F14 = 0xf ∧
    ((ins_8xy4 (((sampleCPU.setV 0xf 200).setV 1 100)) 0x8F14).v 0xf).val = 1 :=
  ⟨by decide,
    (ins_8xy4_vf_destination_holds_carry ((sampleCPU.setV 0xf 200).setV 1 100) 0x8F14
      (by decide)).1⟩

/-! ## 8XY6 and 8XYE: shifts -/

theorem and_0x80_ne_zero_iff (n : Nat) : n &&& 0x80 ≠ 0 ↔ n.testBit 7 = true := by
  have h : n &&& 0x80 = (n.testBit 7).toNat * 2 ^ 7 := Nat.and_two_pow n 7
  rw [h]
  cases n.testBit 7 <;> simp

/-- C5: for every state and every opcode whose X field is not 0xF, the 8XY6 handler leaves
VF = VX_old & 1 and VX = VX_old >> 1, and the 8XYE handler leaves VF = 1 if bit 7 of VX_old is
set, else 0, and VX = (VX_old * 2) mod 256; neither changes a register other than VX and VF,
and the result is the same for every opcode with the same X field, whatever its Y. -/
theorem ins_8xy6_8xye_shift_vx_only (s : CPU) (opcode : Word) (hx : opcodeGetX opcode ≠ 0xf) :
    (((ins_8xy6 s opcode).v 0xf).val = (s.v (opcodeGetX opcode)).val &&& 1 ∧
      ((ins_8xy6 s opcode).v (opcodeGetX opcode)).val = (s.v (opcodeGetX opcode)).val >>> 1 ∧
      (∀ k : Fin 16, k ≠ opcodeGetX opcode → k ≠ 0xf → (ins_8xy6 s opcode).v k = s.v k) ∧
      (∀ opcode2 : Word, opcodeGetX opcode2 = opcodeGetX opcode →
        ins_8xy6 s opcode2 = ins_8xy6 s opcode)) ∧
    (((ins_8xye s opcode).v 0xf).val
        = (if (s.v (opcodeGetX opcode)).val.testBit 7 = true then 1 else 0) ∧
      ((ins_8xye s opcode).v (opcodeGetX opcode)).val
        = ((s.v (opcodeGetX opcode)).val * 2) % 256 ∧
      (∀ k : Fin 16, k ≠ opcodeGetX opcode → k ≠ 0xf → (ins_8xye s opcode).v k = s.v k) ∧
      (∀ opcode2 : Word, opcodeGetX opcode2 = opcodeGetX opcode →
        ins_8xye s opcode2 = ins_8xye s opcode)) := by
  have hx1 := (s.v (opcodeGetX opcode)).isLt
  refine ⟨⟨?_, ?_, ?_, ?_⟩, ⟨?_, ?_, ?_, ?_⟩⟩
  · simp only [ins_8xy6]
    rw [setV_v_ne _ _ _ _ (Ne.symm hx), setV_v_same, byte_val, Nat.and_one_is_mod]
    omega
  · simp only [ins_8xy6]
    rw [setV_v_same, byte_val, setV_v_ne _ _ _ _ hx, Nat.shiftRight_eq_div_pow]
    omega
  · intro k hk hf
    simp only [ins_8xy6]
    rw [setV_v_ne _ _ _ _ hk, setV_v_ne _ _ _ _ hf]
  · intro opcode2 h2
    simp only [ins_8xy6, h2]
  · simp only [ins_8xye]
    rw [setV_v_ne _ _ _ _ (Ne.symm hx), setV_v_same, boolByte_val]
    by_cases hb : (s.v (opcodeGetX opcode)).val.testBit 7 = true
    · have h2 := (and_0x80_ne_zero_iff (s.v (opcodeGetX opcode)).val).mpr hb
      simp [hb, h2]
    · have h2 : ¬ ((s.v (opcodeGetX opcode)).val &&& 0x80 ≠ 0) :=
        fun h => hb ((and_0x80_ne_zero_iff _).mp h)
      simp only [ne_eq, not_not] at h2
      simp [hb, h2]
  · simp only [ins_8xye]
    rw [setV_v_same, byte_val, setV_v_ne _ _ _ _ hx, Nat.shiftLeft_eq]
  · intro k hk hf
    simp only [ins_8xye]
    rw [setV_v_ne _ _ _ _ hk, setV_v_ne _ _ _ _ hf]
  · intro opcode2 h2
    simp only [ins_8xye, h2]

/-- Instance of C5 at V0 = 0x81: opcode 0x8016 leaves VF = 1 and V0 = 0x40, and opcode 0x801E
leaves VF = 1 and V0 = 0x02. -/
theorem ins_8xy6_8xye_shift_vx_only_witness :
    opcodeGetX 0x8016 ≠ 0xf ∧
    ((ins_8xy6 (sampleCPU.setV 0 0x81) 0x8016).v 0xf).val = 1 ∧
    ((ins_8xy6 (sampleCPU.setV 0 0x81) 0x8016).v 0).val = 0x40 ∧
    opcodeGetX 0x801E ≠ 0xf ∧
    ((ins_8xye (sampleCPU.setV 0 0x81) 0x801E).v 0xf).val = 1 ∧
    ((ins_8xye (sampleCPU.setV 0 0x81) 0x801E).v 0).val = 0x02 :=
  ⟨by decide,
    (ins_8xy6_8xye_shift_vx_only (sampleCPU.setV 0 0x81) 0x8016 (by decide)).1.1,
    (ins_8xy6_8xye_shift_vx_only (sampleCPU.setV 0 0x81) 0x8016 (by decide)).1.2.1,
    by decide,
    (ins_8xy6_8xye_shift_vx_only (sampleCPU.setV 0 0x81) 0x801E (by decide)).2.1,
    (ins_8xy6_8xye_shift_vx_only (sampleCPU.setV 0 0x81) 0x801E (by decide)).2.2.1⟩

/-! ## 2NNN and 00EE: the call stack -/

theorem inc8_val_of_lt (b : Byte) (h : b.val < 255) : (inc8 b).val = b.val + 1 := by
  show (b.val + 1) % 256 = b.val + 1
  omega

theorem dec8_val_of_pos (b : Byte) (h : 0 < b.val) : (dec8 b).val = b.val - 1 := by
  have hb := b.isLt
  show ((((b.val : Int) - 1) % 256).toNat : Nat) = b.val - 1
  omega

theorem dec8_inc8 (b : Byte) (h : b.val < 255) : dec8 (inc8 b) = b := by
  apply Fin.ext
  rw [dec8_val_of_pos _ (by rw [inc8_val_of_lt b h]; omega), inc8_val_of_lt b h]
  omega

theorem opcodeGetNNN_call (nnn : Fin 4096) :
    (opcodeGetNNN (word (0x2000 + nnn.val))).val = nnn.val := by
  have h := nnn.isLt
  show (((0x2000 + nnn.val) % 65536) &&& 0xfff) % 65536 = nnn.val
  rw [and_0xfff_eq]
  omega

/-- The 2NNN handler when the incremented SP is a valid stack index: the store lands in the
stack and the handler returns. -/
theorem ins_2nnn_in_bounds (s : CPU) (opcode : Word) (h : (inc8 s.sp).val < 16) :
    ins_2nnn s opcode
      = ⟨{ s with sp := inc8 s.sp,
                  stack := fun k => if k.val = (inc8 s.sp).val then s.pc else s.stack k,
                  pc := opcodeGetNNN opcode },
         [⟨ArrayId.stack, (inc8 s.sp).val, true⟩], none⟩ := by
  simp [ins_2nnn, storeStack, arraySet, h, Outcome.andThen, Outcome.after, Outcome.done]

/-- The 2NNN handler when the incremented SP is not a valid stack index: the handler makes
the out-of-bounds store with SP already incremented and everything else as before. -/
theorem ins_2nnn_out_of_bounds (s : CPU) (opcode : Word) (h : ¬ (inc8 s.sp).val < 16) :
    ins_2nnn s opcode
      = ⟨{ s with sp := inc8 s.sp }, [⟨ArrayId.stack, (inc8 s.sp).val, true⟩],
         some ⟨ArrayId.stack, (inc8 s.sp).val, true⟩⟩ := by
  simp [ins_2nnn, storeStack, arraySet, h, Outcome.andThen]

/-- The 00EE handler when SP is a valid stack index: the load is in bounds and the handler
returns. -/
theorem ins_00ee_in_bounds (s : CPU) (opcode : Word) (h : s.sp.val < 16) :
    ins_00ee s opcode
      = ⟨{ s with sp := dec8 s.sp, pc := s.stack ⟨s.sp.val, h⟩ },
         [⟨ArrayId.stack, s.sp.val, false⟩], none⟩ := by
  simp [ins_00ee, loadStack, arrayGet, h, Outcome.after, Outcome.done]

/-- The 00EE handler when SP is not a valid stack index: the handler makes the out-of-bounds
load with SP already decremented and everything else as before. -/
theorem ins_00ee_out_of_bounds (s : CPU) (opcode : Word) (h : ¬ s.sp.val < 16) :
    ins_00ee s opcode
      = ⟨{ s with sp := dec8 s.sp }, [⟨ArrayId.stack, s.sp.val, false⟩],
         some ⟨ArrayId.stack, s.sp.val, false⟩⟩ := by
  simp [ins_00ee, loadStack, arrayGet, h]

/-- C6: call/return round trip.  For every state with SP <= 14 and every 12-bit NNN, the 2NNN
handler returns (its stack store is in bounds) with PC = NNN, SP = SP_old + 1 and
stack[SP_old + 1] = PC_old, leaving every other stack slot unchanged, and a following 00EE
handler returns (its stack load is in bounds) and restores PC = PC_old and SP = SP_old; the
registers, I, both timers (and the memory) are unchanged by the pair. -/
theorem call_return_round_trip (s : CPU) (nnn : Fin 4096) (h : s.sp.val ≤ 14) :
    (ins_2nnn s (word (0x2000 + nnn.val))).fault = none ∧
    (ins_2nnn s (word (0x2000 + nnn.val))).state.pc.val = nnn.val ∧
    (ins_2nnn s (word (0x2000 + nnn.val))).state.sp.val = s.sp.val + 1 ∧
    (ins_2nnn s (word (0x2000 + nnn.val))).state.stack ⟨s.sp.val + 1, by omega⟩ = s.pc ∧
    (∀ k : Fin 16, k.val ≠ s.sp.val + 1 →
      (ins_2nnn s (word (0x2000 + nnn.val))).state.stack k = s.stack k) ∧
    (ins_00ee (ins_2nnn s (word (0x2000 + nnn.val))).state 0x00EE).fault = none ∧
    (ins_00ee (ins_2nnn s (word (0x2000 + nnn.val))).state 0x00EE).state.pc = s.pc ∧
    (ins_00ee (ins_2nnn s (word (0x2000 + nnn.val))).state 0x00EE).state.sp = s.sp ∧
    (ins_00ee (ins_2nnn s (word (0x2000 + nnn.val))).state 0x00EE).state.v = s.v ∧
    (ins_00ee (ins_2nnn s (word (0x2000 + nnn.val))).state 0x00EE).state.i = s.i ∧
    (ins_00ee (ins_2nnn s (word (0x2000 + nnn.val))).state 0x00EE).state.dt = s.dt ∧
    (ins_00ee (ins_2nnn s (word (0x2000 + nnn.val))).state 0x00EE).state.st = s.st ∧
    (ins_00ee (ins_2nnn s (word (0x2000 + nnn.val))).state 0x00EE).state.memory
      = s.memory := by
  have hsp : (inc8 s.sp).val = s.sp.val + 1 := inc8_val_of_lt s.sp (by omega)
  have hlt : (inc8 s.sp).val < 16 := by omega
  have e1 := ins_2nnn_in_bounds s (word (0x2000 + nnn.val)) hlt
  have hlt2 : (ins_2nnn s (word (0x2000 + nnn.val))).state.sp.val < 16 := by
    rw [e1]
    exact hlt
  have e2 := ins_00ee_in_bounds (ins_2nnn s (word (0x2000 + nnn.val))).state 0x00EE hlt2
  rw [e2]
  simp only [e1]
  refine ⟨trivial, opcodeGetNNN_call nnn, hsp, ?_, ?_, trivial, ?_, ?_, trivial, trivial, trivial,
    trivial, trivial⟩
  · simp [hsp]
  · intro k hk
    simp [hsp, hk]
  · simp
  · exact dec8_inc8 s.sp (by omega)

/-- Instance of C6 at the sample state (PC = 0x200, SP = 0) and NNN = 0x300: the call leaves
PC = 0x300, SP = 1 and stack[1] = 0x200, and the return restores PC = 0x200 and SP = 0. -/
theorem call_return_round_trip_witness :
    sampleCPU.sp.val ≤ 14 ∧
    (ins_2nnn sampleCPU 0x2300).fault = none ∧
    (ins_2nnn sampleCPU 0x2300).state.pc.val = 0x300 ∧
    (ins_2nnn sampleCPU 0x2300).state.sp.val = 1 ∧
    (ins_2nnn sampleCPU 0x2300).state.stack 1 = 0x200 ∧
    (ins_00ee (ins_2nnn sampleCPU 0x2300).state 0x00EE).fault = none ∧
    (ins_00ee (ins_2nnn sampleCPU 0x2300).state 0x00EE).state.pc = 0x200 ∧
    (ins_00ee (ins_2nnn sampleCPU 0x2300).state 0x00EE).state.sp = 0 :=
  ⟨by decide,
    (call_return_round_trip sampleCPU 0x300 (by decide)).1,
    (call_return_round_trip sampleCPU 0x300 (by decide)).2.1,
    (call_return_round_trip sampleCPU 0x300 (by decide)).2.2.1,
    (call_return_round_trip sampleCPU 0x300 (by decide)).2.2.2.1,
    (call_return_round_trip sampleCPU 0x300 (by decide)).2.2.2.2.2.1,
    (call_return_round_trip sampleCPU 0x300 (by decide)).2.2.2.2.2.2.1,
    (call_return_round_trip sampleCPU 0x300 (by decide)).2.2.2.2.2.2.2.1⟩

/-- C7, refuted as stated: at SP = 15 the 2NNN handler advances SP to 16, past the last slot,
and makes the store stack[16] = PC_old, a write outside the 16-entry stack; the store is its
only indexed access and it is out of bounds. -/
theorem ins_2nnn_advances_sp_past_last_slot :
    fullStackCPU.sp.val = 15 ∧
    (ins_2nnn fullStackCPU 0x2300).state.sp.val = 16 ∧
    ¬ (ins_2nnn fullStackCPU 0x2300).state.sp.val ≤ 15 ∧
    (ins_2nnn fullStackCPU 0x2300).accesses = [⟨ArrayId.stack, 16, true⟩] ∧
    (ins_2nnn fullStackCPU 0x2300).fault = some ⟨ArrayId.stack, 16, true⟩ := by
  decide

/-- C7, amended: the 2NNN handler has no overflow check.  For every state with SP = 15 it
advances SP to 16 (past the last slot, not wrapped) and then makes the store
stack[16] = PC_old, which is outside the 16-entry stack; this store is its only indexed
access, no error is surfaced before it, and at the store every other part of the state is
as before the instruction.  The effect of the out-of-bounds store, and what follows it, is
not specified. -/
theorem ins_2nnn_at_last_slot (s : CPU) (opcode : Word) (h : s.sp.val = 15) :
    (ins_2nnn s opcode).fault = some ⟨ArrayId.stack, 16, true⟩ ∧
    (ins_2nnn s opcode).accesses = [⟨ArrayId.stack, 16, true⟩] ∧
    (ins_2nnn s opcode).state.sp.val = 16 ∧
    (ins_2nnn s opcode).state.pc = s.pc ∧
    (ins_2nnn s opcode).state.stack = s.stack ∧
    (ins_2nnn s opcode).state.v = s.v ∧
    (ins_2nnn s opcode).state.i = s.i ∧
    (ins_2nnn s opcode).state.dt = s.dt ∧
    (ins_2nnn s opcode).state.st = s.st ∧
    (ins_2nnn s opcode).state.memory = s.memory := by
  have hsp : (inc8 s.sp).val = 16 := by
    rw [inc8_val_of_lt s.sp (by omega), h]
  have hge : ¬ (inc8 s.sp).val < 16 := by omega
  rw [ins_2nnn_out_of_bounds s opcode hge, hsp]
  exact ⟨rfl, rfl, rfl, rfl, rfl, rfl, rfl, rfl, rfl, rfl⟩

/-- Instance of the amended C7 at the sample state with SP = 15 and opcode 0x2300. -/
theorem ins_2nnn_at_last_slot_witness :
    fullStackCPU.sp.val = 15 ∧
    (ins_2nnn fullStackCPU 0x2300).fault = some ⟨ArrayId.stack, 16, true⟩ ∧
    (ins_2nnn fullStackCPU 0x2300).accesses = [⟨ArrayId.stack, 16, true⟩] ∧
    (ins_2nnn fullStackCPU 0x2300).state.sp.val = 16 :=
  ⟨by decide,
    (ins_2nnn_at_last_slot fullStackCPU 0x2300 (by decide)).1,
    (ins_2nnn_at_last_slot fullStackCPU 0x2300 (by decide)).2.1,
    (ins_2nnn_at_last_slot fullStackCPU 0x2300 (by decide)).2.2.1⟩

/-- C8, refuted as stated: at SP = 0 with 0xABC in stack slot 0 the 00EE handler returns an
ordinary state in which SP has wrapped to 255 and PC has been loaded from the stack. -/
theorem ins_00ee_wraps_sp_below_first_slot :
    emptyStackCPU.sp.val = 0 ∧ emptyStackCPU.stack 0 = 0xABC ∧ emptyStackCPU.pc = 0x200 ∧
    (ins_00ee emptyStackCPU 0x00EE).fault = none ∧
    (ins_00ee emptyStackCPU 0x00EE).state.sp.val = 255 ∧
    (ins_00ee emptyStackCPU 0x00EE).state.pc = 0xABC := by
  decide

/-- C8, amended: the 00EE handler has no underflow check and no error result.  For every state
with SP = 0 it returns (its load stack[0] is in bounds) with PC = stack[0] and SP wrapped to
255; the stack, the registers, I, both timers and the memory are unchanged. -/
theorem ins_00ee_at_first_slot (s : CPU) (opcode : Word) (h : s.sp.val = 0) :
    (ins_00ee s opcode).fault = none ∧
    (ins_00ee s opcode).state.pc = s.stack 0 ∧
    (ins_00ee s opcode).state.sp.val = 255 ∧
    (ins_00ee s opcode).state.stack = s.stack ∧ (ins_00ee s opcode).state.v = s.v ∧
    (ins_00ee s opcode).state.i = s.i ∧ (ins_00ee s opcode).state.dt = s.dt ∧
    (ins_00ee s opcode).state.st = s.st ∧ (ins_00ee s opcode).state.memory = s.memory := by
  have hlt : s.sp.val < 16 := by omega
  rw [ins_00ee_in_bounds s opcode hlt]
  refine ⟨rfl, ?_, ?_, rfl, rfl, rfl, rfl, rfl, rfl⟩
  · show s.stack ⟨s.sp.val, hlt⟩ = s.stack 0
    congr 1
    exact Fin.ext h
  · show (dec8 s.sp).val = 255
    show ((((s.sp.val : Int) - 1) % 256).toNat : Nat) = 255
    rw [h]
    rfl

/-- Instance of the amended C8 at the sample state with SP = 0 and 0xABC in stack slot 0. -/
theorem ins_00ee_at_first_slot_witness :
    emptyStackCPU.sp.val = 0 ∧
    (ins_00ee emptyStackCPU 0x00EE).fault = none ∧
    (ins_00ee emptyStackCPU 0x00EE).state.pc = emptyStackCPU.stack 0 ∧
    (ins_00ee emptyStackCPU 0x00EE).state.sp.val = 255 :=
  ⟨by decide,
    (ins_00ee_at_first_slot emptyStackCPU 0x00EE (by decide)).1,
    (ins_00ee_at_first_slot emptyStackCPU 0x00EE (by decide)).2.1,
    (ins_00ee_at_first_slot emptyStackCPU 0x00EE (by decide)).2.2.1⟩

/-! ## The entry point `execute` -/

/-- C9: the entry point `execute` on a state with PC = 0x200, V0 = 5 and the bytes 0x30, 0x05
of opcode 3005 at PC.  One call leaves PC = 0x200: nothing is fetched and nothing is
dispatched, so PC is neither 0x202 nor 0x204.  The 3XNN handler on its own, given the
opcode, adds the skip of 2 to PC. -/
theorem execute_leaves_pc_unchanged :
    skipCPU.pc = 0x200 ∧ skipCPU.v 0 = 5 ∧
    skipCPU.memory 0x200 = 0x30 ∧ skipCPU.memory 0x201 = 0x05 ∧
    (execute skipCPU).pc = 0x200 ∧
    (execute skipCPU).pc.val ≠ skipCPU.pc.val + 4 ∧
    (ins_3xnn skipCPU 0x3005).pc = 0x202 ∧
    (ins_3xnn skipCPU 0x3006).pc = 0x200 := by
  decide

/-! ## Timers -/

theorem updateTimers_dt (s : CPU) : (updateTimers s).dt.val = s.dt.val - 1 := by
  have hb := s.dt.isLt
  by_cases h : s.dt = 0
  · by_cases h2 : s.st = 0 <;> simp [updateTimers, h, h2]
  · have hpos : 0 < s.dt.val := Nat.pos_of_ne_zero (fun hz => h (Fin.ext hz))
    by_cases h2 : s.st = 0 <;> simp [updateTimers, h, h2, dec8_val_of_pos _ hpos]

theorem updateTimers_st (s : CPU) : (updateTimers s).st.val = s.st.val - 1 := by
  have hb := s.st.isLt
  by_cases h2 : s.st = 0
  · by_cases h : s.dt = 0 <;> simp [updateTimers, h, h2]
  · have hpos : 0 < s.st.val := Nat.pos_of_ne_zero (fun hz => h2 (Fin.ext hz))
    by_cases h : s.dt = 0 <;> simp [updateTimers, h, h2, dec8_val_of_pos _ hpos]

theorem updateTimers_frame (s : CPU) :
    (updateTimers s).v = s.v ∧ (updateTimers s).i = s.i ∧ (updateTimers s).pc = s.pc ∧
    (updateTimers s).sp = s.sp ∧ (updateTimers s).stack = s.stack ∧
    (updateTimers s).memory = s.memory := by
  by_cases h : s.dt = 0 <;> by_cases h2 : s.st = 0 <;> simp [updateTimers, h, h2]

/-- C10: timer saturation.  For every state and every N, N consecutive calls of
`updateTimers` leave DT = max(DT_old - N, 0) and ST = max(ST_old - N, 0); the registers, I,
PC, SP, the stack (and the memory) are unchanged. -/
theorem updateTimers_iterate_saturates (s : CPU) (N : Nat) :
    (((updateTimers^[N]) s).dt.val : Int) = max ((s.dt.val : Int) - N) 0 ∧
    (((updateTimers^[N]) s).st.val : Int) = max ((s.st.val : Int) - N) 0 ∧
    ((updateTimers^[N]) s).v = s.v ∧ ((updateTimers^[N]) s).i = s.i ∧
    ((updateTimers^[N]) s).pc = s.pc ∧ ((updateTimers^[N]) s).sp = s.sp ∧
    ((updateTimers^[N]) s).stack = s.stack ∧ ((updateTimers^[N]) s).memory = s.memory := by
  induction N with
  | zero => simp
  | succ n ih =>
    obtain ⟨hdt, hst, hv, hi, hpc, hsp, hstack, hmem⟩ := ih
    have hf := updateTimers_frame ((updateTimers^[n]) s)
    have h1 := updateTimers_dt ((updateTimers^[n]) s)
    have h2 := updateTimers_st ((updateTimers^[n]) s)
    rw [Function.iterate_succ_apply']
    refine ⟨?_, ?_, hf.1.trans hv, hf.2.1.trans hi, hf.2.2.1.trans hpc,
      hf.2.2.2.1.trans hsp, hf.2.2.2.2.1.trans hstack, hf.2.2.2.2.2.trans hmem⟩
    · rw [h1]
      push_cast
      omega
    · rw [h2]
      push_cast
      omega

/-! ## Opcode decoding -/

theorem and_0xf_eq (n : Nat) : n &&& 0xf = n % 16 :=
  Nat.and_pow_two_sub_one_eq_mod n 4

theorem opcodeGetX_val (w : Word) : (opcodeGetX w).val = w.val / 256 % 16 := by
  show (w.val >>> 8) &&& 0xf = w.val / 256 % 16
  rw [and_0xf_eq, Nat.shiftRight_eq_div_pow]

theorem opcodeGetY_val (w : Word) : (opcodeGetY w).val = w.val / 16 % 16 := by
  show (w.val >>> 4) &&& 0xf = w.val / 16 % 16
  rw [and_0xf_eq, Nat.shiftRight_eq_div_pow]

theorem opcodeGetN_val (w : Word) : (opcodeGetN w).val = w.val % 16 := by
  show (w.val &&& 0xf) % 256 = w.val % 16
  rw [and_0xf_eq]
  omega

theorem opcodeGetNN_val (w : Word) : (opcodeGetNN w).val = w.val % 256 := by
  show (w.val &&& 0xff) % 256 = w.val % 256
  rw [and_0xff_eq]
  omega

theorem opcodeGetNNN_val (w : Word) : (opcodeGetNNN w).val = w.val % 4096 := by
  show (w.val &&& 0xfff) % 65536 = w.val % 4096
  rw [and_0xfff_eq]
  omega

theorem opcodeGetX_encode (top : Nat) (x : Fin 16) (nn : Byte) :
    opcodeGetX (word (4096 * top + 256 * x.val + nn.val)) = x := by
  have hx := x.isLt
  have hn := nn.isLt
  apply Fin.ext
  rw [opcodeGetX_val, word_val]
  omega

theorem opcodeGetNN_encode (top : Nat) (x : Fin 16) (nn : Byte) :
    opcodeGetNN (word (4096 * top + 256 * x.val + nn.val)) = nn := by
  have hx := x.isLt
  have hn := nn.isLt
  apply Fin.ext
  rw [opcodeGetNN_val, word_val]
  omega

/-- C19: for every 16-bit opcode w the decoded fields satisfy X < 16, Y < 16, N < 16,
NN = 16 * Y + N, NNN = 256 * X + NN < 4096 and w = 4096 * (w >> 12) + NNN; X and Y are the
indices of every register access `v[x]`, `v[y]` of the handlers, so these lie within the
16-entry register file. -/
theorem opcode_fields_decode (w : Word) :
    (opcodeGetX w).val < 16 ∧ (opcodeGetY w).val < 16 ∧ (opcodeGetN w).val < 16 ∧
    (opcodeGetNN w).val = 16 * (opcodeGetY w).val + (opcodeGetN w).val ∧
    (opcodeGetNNN w).val = 256 * (opcodeGetX w).val + (opcodeGetNN w).val ∧
    (opcodeGetNNN w).val < 4096 ∧
    w.val = 4096 * (w.val >>> 12) + (opcodeGetNNN w).val := by
  have hw := w.isLt
  rw [opcodeGetX_val, opcodeGetY_val, opcodeGetN_val, opcodeGetNN_val, opcodeGetNNN_val,
    Nat.shiftRight_eq_div_pow]
  refine ⟨?_, ?_, ?_, ?_, ?_, ?_, ?_⟩ <;> omega

/-! ## Reset -/

/-- C11: for every prior state, after `reset` all 16 stack entries and all 16 registers are
0, I = 0, DT = 0, ST = 0, SP = 0 and PC is the memory's program start address; the result is
the same for every prior state that refers to the same memory, and `reset` after `reset`
equals `reset`. -/
theorem reset_reinitializes (s : CPU) :
    (∀ k : Fin 16, (reset s).stack k = 0) ∧ (∀ k : Fin 16, (reset s).v k = 0) ∧
    (reset s).i = 0 ∧ (reset s).dt = 0 ∧ (reset s).st = 0 ∧ (reset s).sp = 0 ∧
    (reset s).pc = s.memory.prgStart ∧ (reset s).memory = s.memory ∧
    (∀ t : CPU, reset { t with memory := s.memory } = reset s) ∧
    reset (reset s) = reset s :=
  ⟨fun _ => rfl, fun _ => rfl, rfl, rfl, rfl, rfl, rfl, rfl, fun _ => rfl, rfl⟩

/-! ## 6XNN and 7XNN: immediate load and add -/

/-- C15: for every X in 0..15, every byte NN and every state, after the 6XNN handler VX = NN,
every register other than VX keeps its value, and I, PC, SP, the stack, both timers (and the
memory) are unchanged. -/
theorem ins_6xnn_loads_immediate (s : CPU) (x : Fin 16) (nn : Byte) :
    (ins_6xnn s (word (0x6000 + 256 * x.val + nn.val))).v x = nn ∧
    (∀ k : Fin 16, k ≠ x → (ins_6xnn s (word (0x6000 + 256 * x.val + nn.val))).v k = s.v k) ∧
    (ins_6xnn s (word (0x6000 + 256 * x.val + nn.val))).i = s.i ∧
    (ins_6xnn s (word (0x6000 + 256 * x.val + nn.val))).pc = s.pc ∧
    (ins_6xnn s (word (0x6000 + 256 * x.val + nn.val))).sp = s.sp ∧
    (ins_6xnn s (word (0x6000 + 256 * x.val + nn.val))).stack = s.stack ∧
    (ins_6xnn s (word (0x6000 + 256 * x.val + nn.val))).dt = s.dt ∧
    (ins_6xnn s (word (0x6000 + 256 * x.val + nn.val))).st = s.st ∧
    (ins_6xnn s (word (0x6000 + 256 * x.val + nn.val))).memory = s.memory := by
  have hX : opcodeGetX (word (0x6000 + 256 * x.val + nn.val)) = x :=
    opcodeGetX_encode 6 x nn
  have hN : opcodeGetNN (word (0x6000 + 256 * x.val + nn.val)) = nn :=
    opcodeGetNN_encode 6 x nn
  refine ⟨?_, ?_, rfl, rfl, rfl, rfl, rfl, rfl, rfl⟩
  · simp only [ins_6xnn, hX, hN, setV_v_same]
  · intro k hk
    simp only [ins_6xnn, hX]
    exact setV_v_ne _ _ _ _ hk

/-- Instance of C15 at the sample state (V0 = 5, VF = 3) with X = 0 and NN = 0x2A: opcode
0x602A leaves V0 = 0x2A and VF = 3. -/
theorem ins_6xnn_loads_immediate_witness :
    (ins_6xnn sampleCPU 0x602A).v 0 = 0x2A ∧ (ins_6xnn sampleCPU 0x602A).v 0xf = 3 :=
  ⟨(ins_6xnn_loads_immediate sampleCPU 0 0x2A).1,
    (ins_6xnn_loads_immediate sampleCPU 0 0x2A).2.1 0xf (by decide)⟩

/-- C18: for every state, every X other than 0xF and every byte NN, the 7XNN handler leaves
VX = (VX_old + NN) mod 256 and leaves VF and every other register as they were, whether or
not the addition exceeds 255; I, PC, SP, the stack, both timers (and the memory) are
unchanged. -/
theorem ins_7xnn_adds_without_flag (s : CPU) (x : Fin 16) (nn : Byte) (hx : x ≠ 0xf) :
    ((ins_7xnn s (word (0x7000 + 256 * x.val + nn.val))).v x).val
        = ((s.v x).val + nn.val) % 256 ∧
    (ins_7xnn s (word (0x7000 + 256 * x.val + nn.val))).v 0xf = s.v 0xf ∧
    (∀ k : Fin 16, k ≠ x → (ins_7xnn s (word (0x7000 + 256 * x.val + nn.val))).v k = s.v k) ∧
    (ins_7xnn s (word (0x7000 + 256 * x.val + nn.val))).i = s.i ∧
    (ins_7xnn s (word (0x7000 + 256 * x.val + nn.val))).pc = s.pc ∧
    (ins_7xnn s (word (0x7000 + 256 * x.val + nn.val))).sp = s.sp ∧
    (ins_7xnn s (word (0x7000 + 256 * x.val + nn.val))).stack = s.stack ∧
    (ins_7xnn s (word (0x7000 + 256 * x.val + nn.val))).dt = s.dt ∧
    (ins_7xnn s (word (0x7000 + 256 * x.val + nn.val))).st = s.st ∧
    (ins_7xnn s (word (0x7000 + 256 * x.val + nn.val))).memory = s.memory := by
  have hX : opcodeGetX (word (0x7000 + 256 * x.val + nn.val)) = x :=
    opcodeGetX_encode 7 x nn
  have hN : opcodeGetNN (word (0x7000 + 256 * x.val + nn.val)) = nn :=
    opcodeGetNN_encode 7 x nn
  refine ⟨?_, ?_, ?_, rfl, rfl, rfl, rfl, rfl, rfl, rfl⟩
  · simp only [ins_7xnn, hX, hN, setV_v_same, byte_val]
  · simp only [ins_7xnn, hX]
    exact setV_v_ne _ _ _ _ (Ne.symm hx)
  · intro k hk
    simp only [ins_7xnn, hX]
    exact setV_v_ne _ _ _ _ hk

/-- Instance of C18 at V1 = 200, VF = 3 with X = 1 and NN = 100: opcode 0x7164 leaves
V1 = (200 + 100) mod 256 = 44 and VF = 3. -/
theorem ins_7xnn_adds_without_flag_witness :
    (1 : Fin 16) ≠ 0xf ∧
    ((ins_7xnn (sampleCPU.setV 1 200) 0x7164).v 1).val = 44 ∧
    (ins_7xnn (sampleCPU.setV 1 200) 0x7164).v 0xf = 3 :=
  ⟨by decide,
    (ins_7xnn_adds_without_flag (sampleCPU.setV 1 200) 1 100 (by decide)).1,
    (ins_7xnn_adds_without_flag (sampleCPU.setV 1 200) 1 100 (by decide)).2.1⟩

/-! ## Conditional skips -/

theorem word_add_two_ne (pc : Word) : word (pc.val + 2) ≠ pc := by
  intro h
  have h1 : (word (pc.val + 2)).val = pc.val := congrArg Fin.val h
  have h2 := pc.isLt
  rw [word_val] at h1
  omega

/-- C16: for every state and every opcode (X, Y, NN its decoded fields) each conditional-skip
handler leaves everything but PC unchanged and sets PC to (PC + 2) mod 65536 if its condition
holds on the current registers, else leaves PC unchanged: 3XNN if VX = NN, 4XNN if VX ≠ NN,
5XY0 if VX = VY, 9XY0 if VX ≠ VY.  PC + 2 mod 65536 differs from PC, so of 3XNN and 4XNN
exactly one skips, and of 5XY0 and 9XY0 exactly one skips. -/
theorem conditional_skips (s : CPU) (opcode : Word) :
    (ins_3xnn s opcode =
      { s with pc := (if s.v (opcodeGetX opcode) = opcodeGetNN opcode then word (s.pc.val + 2) else s.pc) }) ∧
    (ins_4xnn s opcode =
      { s with pc := (if s.v (opcodeGetX opcode) ≠ opcodeGetNN opcode then word (s.pc.val + 2) else s.pc) }) ∧
    (ins_5xy0 s opcode =
      { s with pc := (if s.v (opcodeGetX opcode) = s.v (opcodeGetY opcode) then word (s.pc.val + 2) else s.pc) }) ∧
    (ins_9xy0 s opcode =
      { s with pc := (if s.v (opcodeGetX opcode) ≠ s.v (opcodeGetY opcode) then word (s.pc.val + 2) else s.pc) }) ∧
    (word (s.pc.val + 2)).val = (s.pc.val + 2) % 65536 ∧
    word (s.pc.val + 2) ≠ s.pc ∧
    (((ins_3xnn s opcode).pc = word (s.pc.val + 2) ∧ (ins_4xnn s opcode).pc = s.pc) ∨
      ((ins_3xnn s opcode).pc = s.pc ∧ (ins_4xnn s opcode).pc = word (s.pc.val + 2))) ∧
    (((ins_5xy0 s opcode).pc = word (s.pc.val + 2) ∧ (ins_9xy0 s opcode).pc = s.pc) ∨
      ((ins_5xy0 s opcode).pc = s.pc ∧ (ins_9xy0 s opcode).pc = word (s.pc.val + 2))) := by
  refine ⟨?_, ?_, ?_, ?_, rfl, word_add_two_ne s.pc, ?_, ?_⟩
  · by_cases h : s.v (opcodeGetX opcode) = opcodeGetNN opcode <;> simp [ins_3xnn, h]
  · by_cases h : s.v (opcodeGetX opcode) = opcodeGetNN opcode <;> simp [ins_4xnn, h]
  · by_cases h : s.v (opcodeGetX opcode) = s.v (opcodeGetY opcode) <;> simp [ins_5xy0, h]
  · by_cases h : s.v (opcodeGetX opcode) = s.v (opcodeGetY opcode) <;> simp [ins_9xy0, h]
  · by_cases h : s.v (opcodeGetX opcode) = opcodeGetNN opcode <;> simp [ins_3xnn, ins_4xnn, h]
  · by_cases h : s.v (opcodeGetX opcode) = s.v (opcodeGetY opcode) <;>
      simp [ins_5xy0, ins_9xy0, h]

/-! ## The register copy loops: FX55 and FX65 -/

theorem byte_val_self (reg : Byte) : byte reg.val = reg :=
  Fin.ext (Nat.mod_eq_of_lt reg.isLt)

theorem byte_val_of_lt (k : Nat) (h : k < 256) : (byte k).val = k :=
  Nat.mod_eq_of_lt h

@[simp] theorem after_state (pre : List Access) (o : Outcome) : (o.after pre).state = o.state :=
  rfl

@[simp] theorem after_fault (pre : List Access) (o : Outcome) : (o.after pre).fault = o.fault :=
  rfl

@[simp] theorem after_accesses (pre : List Access) (o : Outcome) :
    (o.after pre).accesses = pre ++ o.accesses := rfl

/-- A loop whose bound is below 255 exits: started at counter `reg` with `n` counter values
left up to the bound, and given more than `n` condition evaluations, it yields the outcome of
running the body for the counter values `reg, reg + 1, ..., x` in order, up to the first
out-of-range access. -/
theorem regLoop_exits (body : Byte → CPU → Outcome) (x : Nat) (hx : x < 255) :
    ∀ (n : Nat) (reg : Byte) (s : CPU) (fuel : Nat), reg.val + n = x + 1 → n + 1 ≤ fuel →
      regLoop body x fuel reg s = some (runBodies body (List.range' reg.val n) s) := by
  intro n
  induction n with
  | zero =>
    intro reg s fuel h1 h2
    cases fuel with
    | zero => omega
    | succ f =>
      have hgt : ¬ reg.val ≤ x := by omega
      simp [regLoop, hgt, runBodies]
  | succ n ih =>
    intro reg s fuel h1 h2
    cases fuel with
    | zero => omega
    | succ f =>
      have hle : reg.val ≤ x := by omega
      have hinc : (inc8 reg).val = reg.val + 1 := inc8_val_of_lt reg (by omega)
      have hrec := ih (inc8 reg) (body reg s).state f (by omega) (by omega)
      rw [hinc] at hrec
      rw [List.range'_succ]
      simp only [regLoop, hle, if_true, runBodies, byte_val_self]
      cases hf : (body reg s).fault with
      | some a => rfl
      | none => simp only [hrec, Option.map_some']

/-- With no more condition evaluations than counter values left up to the bound, a loop
whose iterations stay in range has not exited when they are used up.  The iterations stay
in range when the body, run on any state satisfying `P` with a counter value up to the bound,
makes no out-of-range access and re-establishes `P`. -/
theorem regLoop_needs_fuel (body : Byte → CPU → Outcome) (x : Nat) (hx : x < 255)
    (P : CPU → Prop)
    (hP : ∀ (reg : Byte) (s : CPU), reg.val ≤ x → P s →
      (body reg s).fault = none ∧ P (body reg s).state) :
    ∀ (fuel : Nat) (reg : Byte) (s : CPU), P s → reg.val + fuel ≤ x + 1 →
      regLoop body x fuel reg s = none := by
  intro fuel
  induction fuel with
  | zero => intro reg s _ _; rfl
  | succ f ih =>
    intro reg s hs h
    have hle : reg.val ≤ x := by omega
    have hinc : (inc8 reg).val = reg.val + 1 := inc8_val_of_lt reg (by omega)
    obtain ⟨hf, hs1⟩ := hP reg s hle hs
    have hrec := ih (inc8 reg) (body reg s).state hs1 (by omega)
    simp only [regLoop, hle, if_true, hf, hrec, Option.map_none']

/-- The loop started at counter 0 with a bound X below 255 yields, for every fuel of at
least X + 2, the outcome of running the body for the counter values 0, 1, ..., X. -/
theorem regLoop_from_zero (body : Byte → CPU → Outcome) (x : Nat) (hx : x < 255)
    (s : CPU) (fuel : Nat) (hf : x + 2 ≤ fuel) :
    regLoop body x fuel 0 s = some (runBodies body (List.range (x + 1)) s) := by
  have h := regLoop_exits body x hx (x + 1) 0 s fuel (by simp) (by omega)
  rw [h, List.range_eq_range']
  rfl

theorem ins_fx55_eq_run (s : CPU) (opcode : Word) :
    ins_fx55 s opcode = runBodies fx55Body (List.range ((opcodeGetX opcode).val + 1)) s := by
  have hx := (opcodeGetX opcode).isLt
  simp only [ins_fx55]
  rw [regLoop_from_zero fx55Body _ (by omega) s loopFuel (by simp only [loopFuel]; omega)]
  rfl

theorem ins_fx65_eq_run (s : CPU) (opcode : Word) :
    ins_fx65 s opcode = runBodies fx65Body (List.range ((opcodeGetX opcode).val + 1)) s := by
  have hx := (opcodeGetX opcode).isLt
  simp only [ins_fx65]
  rw [regLoop_from_zero fx65Body _ (by omega) s loopFuel (by simp only [loopFuel]; omega)]
  rfl

/-- An iteration of the FX55 loop with counter value `k` below 16 and `I + k` inside the
memory: the register load and the memory store are in range. -/
theorem fx55Body_in_range (k : Nat) (s : CPU) (hk : k < 16) (hm : s.i.val + k < 4096) :
    fx55Body (byte k) s
      = ⟨{ s with memory := fun a => if a.val = s.i.val + k then s.v ⟨k, hk⟩ else s.memory a },
         [⟨ArrayId.registers, k, false⟩, ⟨ArrayId.memory, s.i.val + k, true⟩], none⟩ := by
  have hb : (byte k).val = k := byte_val_of_lt k (by omega)
  simp [fx55Body, loadV, storeMemory, arrayGet, arraySet, hb, hk, hm, Outcome.after]

/-- An iteration of the FX65 loop with counter value `k` below 16 and `I + k` inside the
memory: the memory load and the register store are in range. -/
theorem fx65Body_in_range (k : Nat) (s : CPU) (hk : k < 16) (hm : s.i.val + k < 4096) :
    fx65Body (byte k) s
      = ⟨{ s with v := fun j => if j.val = k then s.memory ⟨s.i.val + k, hm⟩ else s.v j },
         [⟨ArrayId.memory, s.i.val + k, false⟩, ⟨ArrayId.registers, k, true⟩], none⟩ := by
  have hb : (byte k).val = k := byte_val_of_lt k (by omega)
  simp [fx65Body, loadMemory, storeV, arrayGet, arraySet, hb, hk, hm, Outcome.after]

/-- What an iteration of the FX55 loop leaves unchanged, whether or not its accesses are in
range: everything but the memory cell at `I + reg`. -/
theorem fx55Body_frame (reg : Byte) (s : CPU) :
    (fx55Body reg s).state.v = s.v ∧ (fx55Body reg s).state.i = s.i ∧
    (fx55Body reg s).state.pc = s.pc ∧ (fx55Body reg s).state.sp = s.sp ∧
    (fx55Body reg s).state.stack = s.stack ∧ (fx55Body reg s).state.dt = s.dt ∧
    (fx55Body reg s).state.st = s.st ∧
    (∀ a : Fin 4096, a.val ≠ s.i.val + reg.val →
      (fx55Body reg s).state.memory a = s.memory a) := by
  by_cases hr : reg.val < 16 <;> by_cases hm : s.i.val + reg.val < 4096 <;>
    simp [fx55Body, loadV, storeMemory, arrayGet, arraySet, hr, hm, Outcome.after]
  intro a ha
  simp [ha]

/-- What an iteration of the FX65 loop leaves unchanged, whether or not its accesses are in
range: everything but the register `reg`. -/
theorem fx65Body_frame (reg : Byte) (s : CPU) :
    (fx65Body reg s).state.memory = s.memory ∧ (fx65Body reg s).state.i = s.i ∧
    (fx65Body reg s).state.pc = s.pc ∧ (fx65Body reg s).state.sp = s.sp ∧
    (fx65Body reg s).state.stack = s.stack ∧ (fx65Body reg s).state.dt = s.dt ∧
    (fx65Body reg s).state.st = s.st ∧
    (∀ k : Fin 16, k.val ≠ reg.val → (fx65Body reg s).state.v k = s.v k) := by
  by_cases hr : reg.val < 16 <;> by_cases hm : s.i.val + reg.val < 4096 <;>
    simp [fx65Body, loadMemory, storeV, arrayGet, arraySet, hr, hm, Outcome.after]
  intro k hk
  simp [hk]

/-- A relation between states that is reflexive, transitive and established by every
iteration holds between the initial state and the state of the run. -/
theorem runBodies_rel (body : Byte → CPU → Outcome) (R : CPU → CPU → Prop)
    (hrefl : ∀ s, R s s) (htrans : ∀ a b c, R a b → R b c → R a c) :
    ∀ (ks : List Nat), (∀ k ∈ ks, ∀ s, R s (body (byte k) s).state) →
      ∀ s, R s (runBodies body ks s).state := by
  intro ks
  induction ks with
  | nil => intro _ s; exact hrefl s
  | cons k ks ih =>
    intro hb s
    have h1 := hb k (List.mem_cons_self k ks) s
    have h2 := ih (fun j hj => hb j (List.mem_cons_of_mem k hj)) (body (byte k) s).state
    simp only [runBodies]
    cases hf : (body (byte k) s).fault with
    | some a => exact h1
    | none => exact htrans _ _ _ h1 h2

/-- What the FX55 handler leaves unchanged for every state, whether or not its accesses are
in range: the registers, I, PC, SP, the stack, both timers and every memory cell outside
I .. I + X. -/
theorem ins_fx55_frame (s : CPU) (opcode : Word) :
    (ins_fx55 s opcode).state.v = s.v ∧ (ins_fx55 s opcode).state.i = s.i ∧
    (ins_fx55 s opcode).state.pc = s.pc ∧ (ins_fx55 s opcode).state.sp = s.sp ∧
    (ins_fx55 s opcode).state.stack = s.stack ∧ (ins_fx55 s opcode).state.dt = s.dt ∧
    (ins_fx55 s opcode).state.st = s.st ∧
    (∀ a : Fin 4096, ¬ (s.i.val ≤ a.val ∧ a.val ≤ s.i.val + (opcodeGetX opcode).val) →
      (ins_fx55 s opcode).state.memory a = s.memory a) := by
  have hx := (opcodeGetX opcode).isLt
  rw [ins_fx55_eq_run]
  refine runBodies_rel fx55Body
    (fun s t => t.v = s.v ∧ t.i = s.i ∧ t.pc = s.pc ∧ t.sp = s.sp ∧ t.stack = s.stack ∧
      t.dt = s.dt ∧ t.st = s.st ∧
      (∀ a : Fin 4096, ¬ (s.i.val ≤ a.val ∧ a.val ≤ s.i.val + (opcodeGetX opcode).val) →
        t.memory a = s.memory a))
    ?_ ?_ _ ?_ s
  · intro s
    exact ⟨rfl, rfl, rfl, rfl, rfl, rfl, rfl, fun _ _ => rfl⟩
  · intro a b c hab hbc
    obtain ⟨h1, h2, h3, h4, h5, h6, h7, h8⟩ := hab
    obtain ⟨g1, g2, g3, g4, g5, g6, g7, g8⟩ := hbc
    refine ⟨g1.trans h1, g2.trans h2, g3.trans h3, g4.trans h4, g5.trans h5, g6.trans h6,
      g7.trans h7, ?_⟩
    intro x hx
    rw [g8 x (by rw [h2]; exact hx), h8 x hx]
  · intro k hk s
    have hk2 : k < (opcodeGetX opcode).val + 1 := List.mem_range.mp hk
    have hb : (byte k).val = k := byte_val_of_lt k (by omega)
    obtain ⟨f1, f2, f3, f4, f5, f6, f7, f8⟩ := fx55Body_frame (byte k) s
    refine ⟨f1, f2, f3, f4, f5, f6, f7, ?_⟩
    intro a ha
    exact f8 a (by rw [hb]; omega)

/-- What the FX65 handler leaves unchanged for every state, whether or not its accesses are
in range: the memory, I, PC, SP, the stack, both timers and every register above X. -/
theorem ins_fx65_frame (s : CPU) (opcode : Word) :
    (ins_fx65 s opcode).state.memory = s.memory ∧ (ins_fx65 s opcode).state.i = s.i ∧
    (ins_fx65 s opcode).state.pc = s.pc ∧ (ins_fx65 s opcode).state.sp = s.sp ∧
    (ins_fx65 s opcode).state.stack = s.stack ∧ (ins_fx65 s opcode).state.dt = s.dt ∧
    (ins_fx65 s opcode).state.st = s.st ∧
    (∀ k : Fin 16, (opcodeGetX opcode).val < k.val →
      (ins_fx65 s opcode).state.v k = s.v k) := by
  have hx := (opcodeGetX opcode).isLt
  rw [ins_fx65_eq_run]
  refine runBodies_rel fx65Body
    (fun s t => t.memory = s.memory ∧ t.i = s.i ∧ t.pc = s.pc ∧ t.sp = s.sp ∧
      t.stack = s.stack ∧ t.dt = s.dt ∧ t.st = s.st ∧
      (∀ k : Fin 16, (opcodeGetX opcode).val < k.val → t.v k = s.v k))
    ?_ ?_ _ ?_ s
  · intro s
    exact ⟨rfl, rfl, rfl, rfl, rfl, rfl, rfl, fun _ _ => rfl⟩
  · intro a b c hab hbc
    obtain ⟨h1, h2, h3, h4, h5, h6, h7, h8⟩ := hab
    obtain ⟨g1, g2, g3, g4, g5, g6, g7, g8⟩ := hbc
    refine ⟨g1.trans h1, g2.trans h2, g3.trans h3, g4.trans h4, g5.trans h5, g6.trans h6,
      g7.trans h7, ?_⟩
    intro x hx
    rw [g8 x hx, h8 x hx]
  · intro k hk s
    have hk2 : k < (opcodeGetX opcode).val + 1 := List.mem_range.mp hk
    have hb : (byte k).val = k := byte_val_of_lt k (by omega)
    obtain ⟨f1, f2, f3, f4, f5, f6, f7, f8⟩ := fx65Body_frame (byte k) s
    refine ⟨f1, f2, f3, f4, f5, f6, f7, ?_⟩
    intro j hj
    exact f8 j (by rw [hb]; omega)

/-- The FX55 loop run for the counter values `r, ..., r + n - 1`, all below 16 and with
`I + r + n - 1` inside the memory: no access is out of range, the accesses are a register
load and a memory store per counter value, and cell `I + k` ends up holding `v[k]`. -/
theorem fx55_run (n : Nat) : ∀ (r : Nat) (s : CPU), r + n ≤ 16 → s.i.val + r + n ≤ 4096 →
    (runBodies fx55Body (List.range' r n) s).fault = none ∧
    (runBodies fx55Body (List.range' r n) s).accesses
      = (List.range' r n).flatMap (fun k =>
          [⟨ArrayId.registers, k, false⟩, ⟨ArrayId.memory, s.i.val + k, true⟩]) ∧
    (runBodies fx55Body (List.range' r n) s).state.v = s.v ∧
    (runBodies fx55Body (List.range' r n) s).state.i = s.i ∧
    (∀ (k : Nat) (hk : k < 16) (ha : s.i.val + k < 4096), r ≤ k → k < r + n →
      (runBodies fx55Body (List.range' r n) s).state.memory ⟨s.i.val + k, ha⟩ = s.v ⟨k, hk⟩) ∧
    (∀ a : Fin 4096, ¬ (s.i.val + r ≤ a.val ∧ a.val < s.i.val + r + n) →
      (runBodies fx55Body (List.range' r n) s).state.memory a = s.memory a) := by
  induction n with
  | zero =>
    intro r s _ _
    refine ⟨rfl, rfl, rfl, rfl, ?_, fun _ _ => rfl⟩
    intro k _ _ h1 h2
    omega
  | succ n ih =>
    intro r s h16 hmem
    have e := fx55Body_in_range r s (by omega) (by omega)
    obtain ⟨i1, i2, i3, i4, i5, i6⟩ := ih (r + 1)
      { s with memory := fun a =>
          if a.val = s.i.val + r then s.v ⟨r, by omega⟩ else s.memory a }
      (by omega) (by show s.i.val + (r + 1) + n ≤ 4096; omega)
    rw [List.range'_succ]
    simp only [runBodies, e, after_fault, after_accesses, after_state, List.flatMap_cons]
    refine ⟨i1, ?_, i3, i4, ?_, ?_⟩
    · rw [i2]
    · intro k hk ha h1 h2
      by_cases hkr : k = r
      · subst hkr
        rw [i6 ⟨s.i.val + k, ha⟩ (by simp)]
        simp
      · exact i5 k hk ha (by omega) (by omega)
    · intro a ha
      rw [i6 a (by show ¬ (s.i.val + (r + 1) ≤ a.val ∧ a.val < s.i.val + (r + 1) + n); omega)]
      have hne : a.val ≠ s.i.val + r := by omega
      simp [hne]

/-- The FX65 loop run for the counter values `r, ..., r + n - 1`, all below 16 and with
`I + r + n - 1` inside the memory: no access is out of range, the accesses are a memory
load and a register store per counter value, and register `k` ends up holding
`memory[I + k]`. -/
theorem fx65_run (n : Nat) : ∀ (r : Nat) (s : CPU), r + n ≤ 16 → s.i.val + r + n ≤ 4096 →
    (runBodies fx65Body (List.range' r n) s).fault = none ∧
    (runBodies fx65Body (List.range' r n) s).accesses
      = (List.range' r n).flatMap (fun k =>
          [⟨ArrayId.memory, s.i.val + k, false⟩, ⟨ArrayId.registers, k, true⟩]) ∧
    (runBodies fx65Body (List.range' r n) s).state.memory = s.memory ∧
    (runBodies fx65Body (List.range' r n) s).state.i = s.i ∧
    (∀ (k : Nat) (hk : k < 16) (ha : s.i.val + k < 4096), r ≤ k → k < r + n →
      (runBodies fx65Body (List.range' r n) s).state.v ⟨k, hk⟩ = s.memory ⟨s.i.val + k, ha⟩) ∧
    (∀ k : Fin 16, ¬ (r ≤ k.val ∧ k.val < r + n) →
      (runBodies fx65Body (List.range' r n) s).state.v k = s.v k) := by
  induction n with
  | zero =>
    intro r s _ _
    refine ⟨rfl, rfl, rfl, rfl, ?_, fun _ _ => rfl⟩
    intro k _ _ h1 h2
    omega
  | succ n ih =>
    intro r s h16 hmem
    have e := fx65Body_in_range r s (by omega) (by omega)
    obtain ⟨i1, i2, i3, i4, i5, i6⟩ := ih (r + 1)
      { s with v := fun j =>
          if j.val = r then s.memory ⟨s.i.val + r, by omega⟩ else s.v j }
      (by omega) (by show s.i.val + (r + 1) + n ≤ 4096; omega)
    rw [List.range'_succ]
    simp only [runBodies, e, after_fault, after_accesses, after_state, List.flatMap_cons]
    refine ⟨i1, ?_, i3, i4, ?_, ?_⟩
    · rw [i2]
    · intro k hk ha h1 h2
      by_cases hkr : k = r
      · subst hkr
        rw [i6 ⟨k, hk⟩ (by simp)]
        simp
      · exact i5 k hk ha (by omega) (by omega)
    · intro k hk
      rw [i6 k (by omega)]
      have hne : k.val ≠ r := by omega
      simp [hne]

theorem opcodeGetX_fx (x : Fin 16) (lo : Byte) :
    opcodeGetX (word (0xF000 + 256 * x.val + lo.val)) = x :=
  opcodeGetX_encode 15 x lo

/-- C13: register dump/load round trip.  For every state (register image R = V), every X in
0..15 and every I with I + X inside memory, running the FX55 handler, then zeroing all
registers, then running the FX65 handler yields V[k] = R[k] for every k <= X and V[k] = 0 for
every k > X, and both handlers return without an out-of-range access; FX55 changes no
register, FX65 (on any state) changes no register above X, and neither changes I. -/
theorem dump_load_round_trip (s : CPU) (x : Fin 16) (h : s.i.val + x.val < 4096) :
    (ins_fx55 s (word (0xF000 + 256 * x.val + 0x55))).fault = none ∧
    (ins_fx65 (ins_fx55 s (word (0xF000 + 256 * x.val + 0x55))).state.zeroV
      (word (0xF000 + 256 * x.val + 0x65))).fault = none ∧
    (∀ k : Fin 16, k.val ≤ x.val →
      (ins_fx65 (ins_fx55 s (word (0xF000 + 256 * x.val + 0x55))).state.zeroV
        (word (0xF000 + 256 * x.val + 0x65))).state.v k = s.v k) ∧
    (∀ k : Fin 16, x.val < k.val →
      (ins_fx65 (ins_fx55 s (word (0xF000 + 256 * x.val + 0x55))).state.zeroV
        (word (0xF000 + 256 * x.val + 0x65))).state.v k = 0) ∧
    (ins_fx55 s (word (0xF000 + 256 * x.val + 0x55))).state.v = s.v ∧
    (ins_fx55 s (word (0xF000 + 256 * x.val + 0x55))).state.i = s.i ∧
    (∀ t : CPU, ∀ k : Fin 16, x.val < k.val →
      (ins_fx65 t (word (0xF000 + 256 * x.val + 0x65))).state.v k = t.v k) ∧
    (∀ t : CPU, (ins_fx65 t (word (0xF000 + 256 * x.val + 0x65))).state.i = t.i) := by
  have hx := x.isLt
  have hX55 : opcodeGetX (word (0xF000 + 256 * x.val + 0x55)) = x := opcodeGetX_fx x 0x55
  have hX65 : opcodeGetX (word (0xF000 + 256 * x.val + 0x65)) = x := opcodeGetX_fx x 0x65
  have e55 := ins_fx55_eq_run s (word (0xF000 + 256 * x.val + 0x55))
  rw [hX55, List.range_eq_range'] at e55
  obtain ⟨a1, -, a3, a4, a5, -⟩ := fx55_run (x.val + 1) 0 s (by omega) (by omega)
  rw [← e55] at a1 a3 a4 a5
  have f65 : ∀ t : CPU, (ins_fx65 t (word (0xF000 + 256 * x.val + 0x65))).state.i = t.i ∧
      ∀ k : Fin 16, x.val < k.val →
        (ins_fx65 t (word (0xF000 + 256 * x.val + 0x65))).state.v k = t.v k := by
    intro t
    have f := ins_fx65_frame t (word (0xF000 + 256 * x.val + 0x65))
    rw [hX65] at f
    exact ⟨f.2.1, f.2.2.2.2.2.2.2⟩
  have e65 := ins_fx65_eq_run (ins_fx55 s (word (0xF000 + 256 * x.val + 0x55))).state.zeroV
    (word (0xF000 + 256 * x.val + 0x65))
  rw [hX65, List.range_eq_range'] at e65
  have hi : (ins_fx55 s (word (0xF000 + 256 * x.val + 0x55))).state.zeroV.i = s.i := a4
  obtain ⟨b1, -, -, -, b5, -⟩ := fx65_run (x.val + 1) 0
    (ins_fx55 s (word (0xF000 + 256 * x.val + 0x55))).state.zeroV (by omega)
    (by rw [hi]; omega)
  rw [← e65] at b1 b5
  refine ⟨a1, b1, ?_, ?_, a3, a4, fun t => (f65 t).2, fun t => (f65 t).1⟩
  · intro k hk
    have hin : s.i.val + k.val < 4096 := by omega
    have hin2 : (ins_fx55 s (word (0xF000 + 256 * x.val + 0x55))).state.zeroV.i.val + k.val
        < 4096 := by rw [hi]; exact hin
    have h1 := b5 k.val k.isLt hin2 (by omega) (by omega)
    have h2 := a5 k.val k.isLt hin (by omega) (by omega)
    have h3 : (ins_fx55 s (word (0xF000 + 256 * x.val + 0x55))).state.zeroV.memory
        ⟨(ins_fx55 s (word (0xF000 + 256 * x.val + 0x55))).state.zeroV.i.val + k.val, hin2⟩
        = (ins_fx55 s (word (0xF000 + 256 * x.val + 0x55))).state.memory
            ⟨s.i.val + k.val, hin⟩ := by
      show (ins_fx55 s (word (0xF000 + 256 * x.val + 0x55))).state.memory _ = _
      congr 1
      exact Fin.ext (by show _ + k.val = s.i.val + k.val; rw [hi])
    exact h1.trans (h3.trans h2)
  · intro k hk
    exact (f65 _).2 k hk

/-- Instance of C13 at V0 = 5, V1 = 7, V2 = 9, V3 = 11, I = 0x300 and X = 2 (opcodes 0xF255
and 0xF265): the round trip restores V0, V1, V2 and leaves V3 = 0. -/
theorem dump_load_round_trip_witness :
    dumpCPU.i.val + (2 : Fin 16).val < 4096 ∧
    (ins_fx55 dumpCPU 0xF255).fault = none ∧
    (ins_fx65 (ins_fx55 dumpCPU 0xF255).state.zeroV 0xF265).fault = none ∧
    (ins_fx65 (ins_fx55 dumpCPU 0xF255).state.zeroV 0xF265).state.v 0 = 5 ∧
    (ins_fx65 (ins_fx55 dumpCPU 0xF255).state.zeroV 0xF265).state.v 1 = 7 ∧
    (ins_fx65 (ins_fx55 dumpCPU 0xF255).state.zeroV 0xF265).state.v 2 = 9 ∧
    (ins_fx65 (ins_fx55 dumpCPU 0xF255).state.zeroV 0xF265).state.v 3 = 0 :=
  ⟨by decide,
    (dump_load_round_trip dumpCPU 2 (by decide)).1,
    (dump_load_round_trip dumpCPU 2 (by decide)).2.1,
    (dump_load_round_trip dumpCPU 2 (by decide)).2.2.1 0 (by decide),
    (dump_load_round_trip dumpCPU 2 (by decide)).2.2.1 1 (by decide),
    (dump_load_round_trip dumpCPU 2 (by decide)).2.2.1 2 (by decide),
    (dump_load_round_trip dumpCPU 2 (by decide)).2.2.2.1 3 (by decide)⟩

/-- C20, refuted as stated: with I = 0xFFF, the last memory address, and X = 2 the copy
loops do not make X + 1 = 3 iterations over the addresses I, I + 1, I + 2.  The second
iteration hands the index I + 1 = 4096 to the memory, which is out of range; the loops end
there, and neither address I + 2 nor register V2 is accessed. -/
theorem copy_loops_stop_at_memory_end :
    opcodeGetX 0xF255 = 2 ∧ memoryEndCPU.i = 0xFFF ∧
    (ins_fx55 memoryEndCPU 0xF255).fault = some ⟨ArrayId.memory, 4096, true⟩ ∧
    (ins_fx55 memoryEndCPU 0xF255).accesses
      = [⟨ArrayId.registers, 0, false⟩, ⟨ArrayId.memory, 4095, true⟩,
         ⟨ArrayId.registers, 1, false⟩, ⟨ArrayId.memory, 4096, true⟩] ∧
    (ins_fx65 memoryEndCPU 0xF265).fault = some ⟨ArrayId.memory, 4096, false⟩ ∧
    (ins_fx65 memoryEndCPU 0xF265).accesses
      = [⟨ArrayId.memory, 4095, false⟩, ⟨ArrayId.registers, 0, true⟩,
         ⟨ArrayId.memory, 4096, false⟩] := by
  decide

/-- C20, amended: for every opcode and every state with I + X inside the memory
(X = opcodeGetX(opcode) <= 15) the copy loops of FX55 and FX65 exit after exactly X + 1
iterations: X + 2 evaluations of the loop condition reach the exit (as does the full
allowance of an 8-bit counter) while X + 1 do not, no access is out of range, and the
accesses made are, in order for k = 0, 1, ..., X, the load of register k and the store to
memory index I + k (FX55), or the load from memory index I + k and the store to register k
(FX65), with I + k computed without 16-bit wraparound.  FX55 leaves every memory cell outside
I .. I + X and every register unchanged, FX65 leaves every register above X and the memory
unchanged. -/
theorem copy_loops_in_range (s : CPU) (opcode : Word)
    (h : s.i.val + (opcodeGetX opcode).val < 4096) :
    (opcodeGetX opcode).val ≤ 15 ∧
    (regLoop fx55Body (opcodeGetX opcode).val ((opcodeGetX opcode).val + 2) 0 s
        = some (ins_fx55 s opcode) ∧
      regLoop fx55Body (opcodeGetX opcode).val loopFuel 0 s = some (ins_fx55 s opcode) ∧
      regLoop fx55Body (opcodeGetX opcode).val ((opcodeGetX opcode).val + 1) 0 s = none ∧
      (ins_fx55 s opcode).fault = none ∧
      (ins_fx55 s opcode).accesses
        = (List.range ((opcodeGetX opcode).val + 1)).flatMap (fun k =>
            [⟨ArrayId.registers, k, false⟩, ⟨ArrayId.memory, s.i.val + k, true⟩])) ∧
    (regLoop fx65Body (opcodeGetX opcode).val ((opcodeGetX opcode).val + 2) 0 s
        = some (ins_fx65 s opcode) ∧
      regLoop fx65Body (opcodeGetX opcode).val loopFuel 0 s = some (ins_fx65 s opcode) ∧
      regLoop fx65Body (opcodeGetX opcode).val ((opcodeGetX opcode).val + 1) 0 s = none ∧
      (ins_fx65 s opcode).fault = none ∧
      (ins_fx65 s opcode).accesses
        = (List.range ((opcodeGetX opcode).val + 1)).flatMap (fun k =>
            [⟨ArrayId.memory, s.i.val + k, false⟩, ⟨ArrayId.registers, k, true⟩])) ∧
    ((∀ a : Fin 4096, ¬ (s.i.val ≤ a.val ∧ a.val ≤ s.i.val + (opcodeGetX opcode).val) →
        (ins_fx55 s opcode).state.memory a = s.memory a) ∧
      (ins_fx55 s opcode).state.v = s.v) ∧
    ((∀ k : Fin 16, (opcodeGetX opcode).val < k.val →
        (ins_fx65 s opcode).state.v k = s.v k) ∧
      (ins_fx65 s opcode).state.memory = s.memory) := by
  have hx := (opcodeGetX opcode).isLt
  have hfuel : (opcodeGetX opcode).val + 2 ≤ loopFuel := by
    simp only [loopFuel]
    omega
  have e55 := ins_fx55_eq_run s opcode
  have e65 := ins_fx65_eq_run s opcode
  have r55 := fx55_run ((opcodeGetX opcode).val + 1) 0 s (by omega) (by omega)
  have r65 := fx65_run ((opcodeGetX opcode).val + 1) 0 s (by omega) (by omega)
  rw [← List.range_eq_range', ← e55] at r55
  rw [← List.range_eq_range', ← e65] at r65
  have f55 := ins_fx55_frame s opcode
  have f65 := ins_fx65_frame s opcode
  have n55 : regLoop fx55Body (opcodeGetX opcode).val ((opcodeGetX opcode).val + 1) 0 s
      = none := by
    refine regLoop_needs_fuel fx55Body _ (by omega) (fun t => t.i = s.i) ?_ _ 0 s rfl (by simp)
    intro reg t hreg ht
    have e := fx55Body_in_range reg.val t (by omega) (by rw [ht]; omega)
    rw [byte_val_self] at e
    rw [e]
    exact ⟨rfl, ht⟩
  have n65 : regLoop fx65Body (opcodeGetX opcode).val ((opcodeGetX opcode).val + 1) 0 s
      = none := by
    refine regLoop_needs_fuel fx65Body _ (by omega) (fun t => t.i = s.i) ?_ _ 0 s rfl (by simp)
    intro reg t hreg ht
    have e := fx65Body_in_range reg.val t (by omega) (by rw [ht]; omega)
    rw [byte_val_self] at e
    rw [e]
    exact ⟨rfl, ht⟩
  refine ⟨by omega, ⟨?_, ?_, n55, r55.1, ?_⟩, ⟨?_, ?_, n65, r65.1, ?_⟩,
    ⟨f55.2.2.2.2.2.2.2, f55.1⟩, ⟨f65.2.2.2.2.2.2.2, f65.1⟩⟩
  · rw [regLoop_from_zero fx55Body _ (by omega) s _ (le_refl _), e55]
  · rw [regLoop_from_zero fx55Body _ (by omega) s _ hfuel, e55]
  · rw [r55.2.1, List.range_eq_range']
  · rw [regLoop_from_zero fx65Body _ (by omega) s _ (le_refl _), e65]
  · rw [regLoop_from_zero fx65Body _ (by omega) s _ hfuel, e65]
  · rw [r65.2.1, List.range_eq_range']

/-- Instance of the amended C20 at V0 = 5, V1 = 7, V2 = 9, V3 = 11, I = 0x300 and opcode
0xF255 (X = 2): three iterations, accessing V0 and 0x300, V1 and 0x301, V2 and 0x302. -/
theorem copy_loops_in_range_witness :
    dumpCPU.i.val + (opcodeGetX 0xF255).val < 4096 ∧
    regLoop fx55Body 2 4 0 dumpCPU = some (ins_fx55 dumpCPU 0xF255) ∧
    regLoop fx55Body 2 3 0 dumpCPU = none ∧
    (ins_fx55 dumpCPU 0xF255).fault = none ∧
    (ins_fx55 dumpCPU 0xF255).accesses
      = [⟨ArrayId.registers, 0, false⟩, ⟨ArrayId.memory, 0x300, true⟩,
         ⟨ArrayId.registers, 1, false⟩, ⟨ArrayId.memory, 0x301, true⟩,
         ⟨ArrayId.registers, 2, false⟩, ⟨ArrayId.memory, 0x302, true⟩] ∧
    (ins_fx65 dumpCPU 0xF255).accesses
      = [⟨ArrayId.memory, 0x300, false⟩, ⟨ArrayId.registers, 0, true⟩,
         ⟨ArrayId.memory, 0x301, false⟩, ⟨ArrayId.registers, 1, true⟩,
         ⟨ArrayId.memory, 0x302, false⟩, ⟨ArrayId.registers, 2, true⟩] :=
  ⟨by decide,
    (copy_loops_in_range dumpCPU 0xF255 (by decide)).2.1.1,
    (copy_loops_in_range dumpCPU 0xF255 (by decide)).2.1.2.2.1,
    (copy_loops_in_range dumpCPU 0xF255 (by decide)).2.1.2.2.2.1,
    (copy_loops_in_range dumpCPU 0xF255 (by decide)).2.1.2.2.2.2,
    (copy_loops_in_range dumpCPU 0xF255 (by decide)).2.2.1.2.2.2.2⟩

/-! ## FX33: binary-coded decimal -/

/-- The FX33 handler with I, I + 1, I + 2 inside the memory: the three stores are in range
and the handler returns. -/
theorem ins_fx33_in_range (s : CPU) (opcode : Word) (h : s.i.val + 2 < 4096) :
    ins_fx33 s opcode
      = ⟨{ s with memory := fun a =>
            if a.val = s.i.val + 2 then byte ((s.v (opcodeGetX opcode)).val % 10)
            else if a.val = s.i.val + 1 then byte ((s.v (opcodeGetX opcode)).val / 10 % 10)
            else if a.val = s.i.val then byte ((s.v (opcodeGetX opcode)).val / 100)
            else s.memory a },
         [⟨ArrayId.memory, s.i.val, true⟩, ⟨ArrayId.memory, s.i.val + 1, true⟩,
          ⟨ArrayId.memory, s.i.val + 2, true⟩], none⟩ := by
  have h0 : s.i.val < 4096 := by omega
  have h1 : s.i.val + 1 < 4096 := by omega
  simp [ins_fx33, storeMemory, arraySet, h0, h1, h, Outcome.andThen, Outcome.after]

/-- C12: BCD store.  For every state and opcode with I, I + 1, I + 2 inside memory, the FX33
handler returns without an out-of-range access and stores at Memory[I], Memory[I+1],
Memory[I+2] digits h, t, o with h <= 2, t <= 9, o <= 9 and 100 * h + 10 * t + o = VX; every
other memory cell, I, all registers (and PC, SP, the stack and both timers) are unchanged. -/
theorem ins_fx33_stores_bcd (s : CPU) (opcode : Word) (h : s.i.val + 2 < 4096) :
    (ins_fx33 s opcode).fault = none ∧
    ((ins_fx33 s opcode).state.memory ⟨s.i.val, by omega⟩).val ≤ 2 ∧
    ((ins_fx33 s opcode).state.memory ⟨s.i.val + 1, by omega⟩).val ≤ 9 ∧
    ((ins_fx33 s opcode).state.memory ⟨s.i.val + 2, h⟩).val ≤ 9 ∧
    100 * ((ins_fx33 s opcode).state.memory ⟨s.i.val, by omega⟩).val
      + 10 * ((ins_fx33 s opcode).state.memory ⟨s.i.val + 1, by omega⟩).val
      + ((ins_fx33 s opcode).state.memory ⟨s.i.val + 2, h⟩).val
      = (s.v (opcodeGetX opcode)).val ∧
    (∀ a : Fin 4096, a.val ≠ s.i.val → a.val ≠ s.i.val + 1 → a.val ≠ s.i.val + 2 →
      (ins_fx33 s opcode).state.memory a = s.memory a) ∧
    (ins_fx33 s opcode).state.i = s.i ∧ (ins_fx33 s opcode).state.v = s.v ∧
    (ins_fx33 s opcode).state.pc = s.pc ∧ (ins_fx33 s opcode).state.sp = s.sp ∧
    (ins_fx33 s opcode).state.stack = s.stack ∧ (ins_fx33 s opcode).state.dt = s.dt ∧
    (ins_fx33 s opcode).state.st = s.st := by
  have hv := (s.v (opcodeGetX opcode)).isLt
  have e := ins_fx33_in_range s opcode h
  have h0 : ((ins_fx33 s opcode).state.memory ⟨s.i.val, by omega⟩).val
      = (s.v (opcodeGetX opcode)).val / 100 := by
    rw [e]
    simp [byte_val]
    omega
  have h1 : ((ins_fx33 s opcode).state.memory ⟨s.i.val + 1, by omega⟩).val
      = (s.v (opcodeGetX opcode)).val / 10 % 10 := by
    rw [e]
    simp [byte_val]
    omega
  have h2 : ((ins_fx33 s opcode).state.memory ⟨s.i.val + 2, h⟩).val
      = (s.v (opcodeGetX opcode)).val % 10 := by
    rw [e]
    simp [byte_val]
    omega
  refine ⟨?_, ?_, ?_, ?_, ?_, ?_, ?_, ?_, ?_, ?_, ?_, ?_, ?_⟩
  · rw [e]
  · omega
  · omega
  · omega
  · omega
  · intro a ha0 ha1 ha2
    rw [e]
    simp [ha0, ha1, ha2]
  all_goals rw [e]

/-- Instance of C12 at V2 = 234, I = 0x300 and opcode 0xF233: the digits stored at 0x300,
0x301, 0x302 satisfy the bounds and 100 * h + 10 * t + o = 234; they are 2, 3, 4. -/
theorem ins_fx33_stores_bcd_witness :
    bcdCPU.i.val + 2 < 4096 ∧
    (ins_fx33 bcdCPU 0xF233).fault = none ∧
    ((ins_fx33 bcdCPU 0xF233).state.memory 0x300).val ≤ 2 ∧
    ((ins_fx33 bcdCPU 0xF233).state.memory 0x301).val ≤ 9 ∧
    ((ins_fx33 bcdCPU 0xF233).state.memory 0x302).val ≤ 9 ∧
    100 * ((ins_fx33 bcdCPU 0xF233).state.memory 0x300).val
      + 10 * ((ins_fx33 bcdCPU 0xF233).state.memory 0x301).val
      + ((ins_fx33 bcdCPU 0xF233).state.memory 0x302).val = 234 ∧
    (ins_fx33 bcdCPU 0xF233).state.memory 0x300 = 2 ∧
    (ins_fx33 bcdCPU 0xF233).state.memory 0x301 = 3 ∧
    (ins_fx33 bcdCPU 0xF233).state.memory 0x302 = 4 :=
  ⟨by decide,
    (ins_fx33_stores_bcd bcdCPU 0xF233 (by decide)).1,
    (ins_fx33_stores_bcd bcdCPU 0xF233 (by decide)).2.1,
    (ins_fx33_stores_bcd bcdCPU 0xF233 (by decide)).2.2.1,
    (ins_fx33_stores_bcd bcdCPU 0xF233 (by decide)).2.2.2.1,
    (ins_fx33_stores_bcd bcdCPU 0xF233 (by decide)).2.2.2.2.1,
    by decide, by decide, by decide⟩

/-! ## Timer moves and the timer frame of every handler -/

/-- What the FX33 handler leaves unchanged for every state, whether or not its stores are in
range: everything but the memory. -/
theorem ins_fx33_frame (s : CPU) (opcode : Word) :
    (ins_fx33 s opcode).state.v = s.v ∧ (ins_fx33 s opcode).state.i = s.i ∧
    (ins_fx33 s opcode).state.pc = s.pc ∧ (ins_fx33 s opcode).state.sp = s.sp ∧
    (ins_fx33 s opcode).state.stack = s.stack ∧ (ins_fx33 s opcode).state.dt = s.dt ∧
    (ins_fx33 s opcode).state.st = s.st := by
  by_cases h0 : s.i.val < 4096 <;> by_cases h1 : s.i.val + 1 < 4096 <;>
    by_cases h2 : s.i.val + 2 < 4096 <;>
    simp [ins_fx33, storeMemory, arraySet, h0, h1, h2, Outcome.andThen, Outcome.after]

/-- What the 2NNN handler leaves unchanged for every state, up to its return or up to its
out-of-bounds store: the registers, I, both timers and the memory. -/
theorem ins_2nnn_frame (s : CPU) (opcode : Word) :
    (ins_2nnn s opcode).state.v = s.v ∧ (ins_2nnn s opcode).state.i = s.i ∧
    (ins_2nnn s opcode).state.dt = s.dt ∧ (ins_2nnn s opcode).state.st = s.st ∧
    (ins_2nnn s opcode).state.memory = s.memory := by
  by_cases h : (inc8 s.sp).val < 16
  · rw [ins_2nnn_in_bounds s opcode h]
    exact ⟨rfl, rfl, rfl, rfl, rfl⟩
  · rw [ins_2nnn_out_of_bounds s opcode h]
    exact ⟨rfl, rfl, rfl, rfl, rfl⟩

/-- What the 00EE handler leaves unchanged for every state, up to its return or up to its
out-of-bounds load: the stack, the registers, I, both timers and the memory. -/
theorem ins_00ee_frame (s : CPU) (opcode : Word) :
    (ins_00ee s opcode).state.stack = s.stack ∧ (ins_00ee s opcode).state.v = s.v ∧
    (ins_00ee s opcode).state.i = s.i ∧ (ins_00ee s opcode).state.dt = s.dt ∧
    (ins_00ee s opcode).state.st = s.st ∧ (ins_00ee s opcode).state.memory = s.memory := by
  by_cases h : s.sp.val < 16
  · rw [ins_00ee_in_bounds s opcode h]
    exact ⟨rfl, rfl, rfl, rfl, rfl, rfl⟩
  · rw [ins_00ee_out_of_bounds s opcode h]
    exact ⟨rfl, rfl, rfl, rfl, rfl, rfl⟩

/-- C17, refuted as stated: at SP = 25 the 2NNN handler does not return with DT and ST
unchanged.  After advancing SP it makes the store stack[26] = PC, outside the 16-entry
stack, which is undefined behaviour; no state with unchanged timers is the result. -/
theorem ins_2nnn_store_beyond_stack :
    beyondStackCPU.sp.val = 25 ∧
    (ins_2nnn beyondStackCPU 0x2300).accesses = [⟨ArrayId.stack, 26, true⟩] ∧
    (ins_2nnn beyondStackCPU 0x2300).fault = some ⟨ArrayId.stack, 26, true⟩ ∧
    ¬ ((ins_2nnn beyondStackCPU 0x2300).fault = none ∧
        (ins_2nnn beyondStackCPU 0x2300).state.dt = beyondStackCPU.dt ∧
        (ins_2nnn beyondStackCPU 0x2300).state.st = beyondStackCPU.st) := by
  decide

/-- C17, amended: the timers are written only by their dedicated handlers, up to an
out-of-range access.  For every state, every opcode (and every keyboard) each instruction
handler of `cpu.cpp` other than FX15 leaves DT unchanged and each handler other than FX18
leaves ST unchanged; for 00EE, 2NNN, FX33, FX55 and FX65, which index the stack or the memory
with a computed value, this holds at the return and, when an access is out of range, at that
access, beyond which nothing is specified; they return when SP <= 15 (00EE), SP <= 14
(2NNN), I + 2 is inside the memory (FX33), I + X is inside the memory (FX55, FX65).  FX15
sets DT = VX, FX18 sets ST = VX, and FX07 sets VX = DT and leaves DT unchanged. -/
theorem timers_written_only_by_fx15_fx18 (s : CPU) (opcode : Word) (kb : Keyboard) :
    ((ins_fx15 s opcode).dt = s.v (opcodeGetX opcode) ∧ (ins_fx15 s opcode).st = s.st) ∧
    ((ins_fx18 s opcode).st = s.v (opcodeGetX opcode) ∧ (ins_fx18 s opcode).dt = s.dt) ∧
    ((ins_fx07 s opcode).v (opcodeGetX opcode) = s.dt ∧ (ins_fx07 s opcode).dt = s.dt ∧
      (ins_fx07 s opcode).st = s.st) ∧
    ((ins_0nnn s opcode).dt = s.dt ∧ (ins_0nnn s opcode).st = s.st) ∧
    ((ins_00e0 s opcode).dt = s.dt ∧ (ins_00e0 s opcode).st = s.st) ∧
    ((ins_00ee s opcode).state.dt = s.dt ∧ (ins_00ee s opcode).state.st = s.st) ∧
    ((ins_1nnn s opcode).dt = s.dt ∧ (ins_1nnn s opcode).st = s.st) ∧
    ((ins_2nnn s opcode).state.dt = s.dt ∧ (ins_2nnn s opcode).state.st = s.st) ∧
    ((ins_3xnn s opcode).dt = s.dt ∧ (ins_3xnn s opcode).st = s.st) ∧
    ((ins_4xnn s opcode).dt = s.dt ∧ (ins_4xnn s opcode).st = s.st) ∧
    ((ins_5xy0 s opcode).dt = s.dt ∧ (ins_5xy0 s opcode).st = s.st) ∧
    ((ins_6xnn s opcode).dt = s.dt ∧ (ins_6xnn s opcode).st = s.st) ∧
    ((ins_7xnn s opcode).dt = s.dt ∧ (ins_7xnn s opcode).st = s.st) ∧
    ((ins_8xy0 s opcode).dt = s.dt ∧ (ins_8xy0 s opcode).st = s.st) ∧
    ((ins_8xy1 s opcode).dt = s.dt ∧ (ins_8xy1 s opcode).st = s.st) ∧
    ((ins_8xy2 s opcode).dt = s.dt ∧ (ins_8xy2 s opcode).st = s.st) ∧
    ((ins_8xy3 s opcode).dt = s.dt ∧ (ins_8xy3 s opcode).st = s.st) ∧
    ((ins_8xy4 s opcode).dt = s.dt ∧ (ins_8xy4 s opcode).st = s.st) ∧
    ((ins_8xy5 s opcode).dt = s.dt ∧ (ins_8xy5 s opcode).st = s.st) ∧
    ((ins_8xy6 s opcode).dt = s.dt ∧ (ins_8xy6 s opcode).st = s.st) ∧
    ((ins_8xy7 s opcode).dt = s.dt ∧ (ins_8xy7 s opcode).st = s.st) ∧
    ((ins_8xye s opcode).dt = s.dt ∧ (ins_8xye s opcode).st = s.st) ∧
    ((ins_9xy0 s opcode).dt = s.dt ∧ (ins_9xy0 s opcode).st = s.st) ∧
    ((ins_annn s opcode).dt = s.dt ∧ (ins_annn s opcode).st = s.st) ∧
    ((ins_bnnn s opcode).dt = s.dt ∧ (ins_bnnn s opcode).st = s.st) ∧
    ((ins_cxnn s opcode).dt = s.dt ∧ (ins_cxnn s opcode).st = s.st) ∧
    ((ins_dxyn s opcode).dt = s.dt ∧ (ins_dxyn s opcode).st = s.st) ∧
    ((ins_ex9e s opcode).dt = s.dt ∧ (ins_ex9e s opcode).st = s.st) ∧
    ((ins_exa1 s opcode).dt = s.dt ∧ (ins_exa1 s opcode).st = s.st) ∧
    ((ins_fx0a kb s opcode).dt = s.dt ∧ (ins_fx0a kb s opcode).st = s.st) ∧
    ((ins_fx1e s opcode).dt = s.dt ∧ (ins_fx1e s opcode).st = s.st) ∧
    ((ins_fx29 s opcode).dt = s.dt ∧ (ins_fx29 s opcode).st = s.st) ∧
    ((ins_fx33 s opcode).state.dt = s.dt ∧ (ins_fx33 s opcode).state.st = s.st) ∧
    ((ins_fx55 s opcode).state.dt = s.dt ∧ (ins_fx55 s opcode).state.st = s.st) ∧
    ((ins_fx65 s opcode).state.dt = s.dt ∧ (ins_fx65 s opcode).state.st = s.st) ∧
    ((s.sp.val ≤ 15 → (ins_00ee s opcode).fault = none) ∧
      (s.sp.val ≤ 14 → (ins_2nnn s opcode).fault = none) ∧
      (s.i.val + 2 < 4096 → (ins_fx33 s opcode).fault = none) ∧
      (s.i.val + (opcodeGetX opcode).val < 4096 →
        (ins_fx55 s opcode).fault = none ∧ (ins_fx65 s opcode).fault = none)) := by
  have hx := (opcodeGetX opcode).isLt
  have d00 : s.sp.val ≤ 15 → (ins_00ee s opcode).fault = none := by
    intro h
    rw [ins_00ee_in_bounds s opcode (by omega)]
  have d2n : s.sp.val ≤ 14 → (ins_2nnn s opcode).fault = none := by
    intro h
    have hsp : (inc8 s.sp).val = s.sp.val + 1 := inc8_val_of_lt s.sp (by omega)
    rw [ins_2nnn_in_bounds s opcode (by omega)]
  have d33 : s.i.val + 2 < 4096 → (ins_fx33 s opcode).fault = none := by
    intro h
    rw [ins_fx33_in_range s opcode h]
  have d5 : s.i.val + (opcodeGetX opcode).val < 4096 →
      (ins_fx55 s opcode).fault = none ∧ (ins_fx65 s opcode).fault = none := by
    intro h
    have r55 := fx55_run ((opcodeGetX opcode).val + 1) 0 s (by omega) (by omega)
    have r65 := fx65_run ((opcodeGetX opcode).val + 1) 0 s (by omega) (by omega)
    rw [← List.range_eq_range', ← ins_fx55_eq_run] at r55
    rw [← List.range_eq_range', ← ins_fx65_eq_run] at r65
    exact ⟨r55.1, r65.1⟩
  have h55 := ins_fx55_frame s opcode
  have h65 := ins_fx65_frame s opcode
  have h33 := ins_fx33_frame s opcode
  have h2n := ins_2nnn_frame s opcode
  have hee := ins_00ee_frame s opcode
  have h3 : (ins_3xnn s opcode).dt = s.dt ∧ (ins_3xnn s opcode).st = s.st := by
    simp only [ins_3xnn]
    split <;> exact ⟨rfl, rfl⟩
  have h4 : (ins_4xnn s opcode).dt = s.dt ∧ (ins_4xnn s opcode).st = s.st := by
    simp only [ins_4xnn]
    split <;> exact ⟨rfl, rfl⟩
  have h5 : (ins_5xy0 s opcode).dt = s.dt ∧ (ins_5xy0 s opcode).st = s.st := by
    simp only [ins_5xy0]
    split <;> exact ⟨rfl, rfl⟩
  have h9 : (ins_9xy0 s opcode).dt = s.dt ∧ (ins_9xy0 s opcode).st = s.st := by
    simp only [ins_9xy0]
    split <;> exact ⟨rfl, rfl⟩
  have h07 : (ins_fx07 s opcode).v (opcodeGetX opcode) = s.dt := by
    simp only [ins_fx07, setV_v_same]
  exact ⟨⟨rfl, rfl⟩, ⟨rfl, rfl⟩, ⟨h07, rfl, rfl⟩, ⟨rfl, rfl⟩, ⟨rfl, rfl⟩,
    ⟨hee.2.2.2.1, hee.2.2.2.2.1⟩,
    ⟨rfl, rfl⟩, ⟨h2n.2.2.1, h2n.2.2.2.1⟩, h3, h4, h5, ⟨rfl, rfl⟩, ⟨rfl, rfl⟩, ⟨rfl, rfl⟩,
    ⟨rfl, rfl⟩,
    ⟨rfl, rfl⟩, ⟨rfl, rfl⟩, ⟨rfl, rfl⟩, ⟨rfl, rfl⟩, ⟨rfl, rfl⟩, ⟨rfl, rfl⟩, ⟨rfl, rfl⟩, h9,
    ⟨rfl, rfl⟩, ⟨rfl, rfl⟩, ⟨rfl, rfl⟩, ⟨rfl, rfl⟩, ⟨rfl, rfl⟩, ⟨rfl, rfl⟩, ⟨rfl, rfl⟩,
    ⟨rfl, rfl⟩, ⟨rfl, rfl⟩, ⟨h33.2.2.2.2.2.1, h33.2.2.2.2.2.2⟩,
    ⟨h55.2.2.2.2.2.1, h55.2.2.2.2.2.2.1⟩, ⟨h65.2.2.2.2.2.1, h65.2.2.2.2.2.2.1⟩,
    ⟨d00, d2n, d33, d5⟩⟩

/-- Instance of the amended C17 at the sample state (SP = 0, DT = ST = 0) and opcode 0x2300:
the 2NNN handler returns and leaves both timers unchanged, and FX15 with X = 0 sets
DT = V0 = 5. -/
theorem timers_written_only_by_fx15_fx18_witness :
    sampleCPU.sp.val ≤ 14 ∧
    (ins_2nnn sampleCPU 0x2300).fault = none ∧
    (ins_2nnn sampleCPU 0x2300).state.dt = sampleCPU.dt ∧
    (ins_2nnn sampleCPU 0x2300).state.st = sampleCPU.st ∧
    (ins_fx15 sampleCPU 0xF015).dt = 5 :=
  ⟨by decide,
    (timers_written_only_by_fx15_fx18 sampleCPU 0x2300 key7Pressed).2.2.2.2.2.2.2.2.2.2.2.2.2.2.2.2.2.2.2.2.2.2.2.2.2.2.2.2.2.2.2.2.2.2.2.2.1
      (by decide),
    (timers_written_only_by_fx15_fx18 sampleCPU 0x2300 key7Pressed).2.2.2.2.2.2.2.1.1,
    (timers_written_only_by_fx15_fx18 sampleCPU 0x2300 key7Pressed).2.2.2.2.2.2.2.1.2,
    (timers_written_only_by_fx15_fx18 sampleCPU 0xF015 key7Pressed).1.1⟩

/-! ## FX0A: wait for a key -/

/-- C14: the FX0A handler with key 7 reported as first pressed.  On the sample state (V0 = 5,
PC = 0x200) and opcode 0xF00A the handler returns the state unchanged: V0 stays 5 and does
not receive the key 7; the same holds for one call of `execute`. -/
theorem ins_fx0a_ignores_pressed_key :
    key7Pressed.firstPressed = some 7 ∧ opcodeGetX 0xF00A = 0 ∧ sampleCPU.v 0 = 5 ∧
    (ins_fx0a key7Pressed sampleCPU 0xF00A).v 0 = 5 ∧
    (ins_fx0a key7Pressed sampleCPU 0xF00A).v 0 ≠ 7 ∧
    (ins_fx0a key7Pressed sampleCPU 0xF00A).pc = sampleCPU.pc ∧
    (execute sampleCPU).v 0 ≠ 7 := by
  decide

end chip8
